import Mathlib

/-!
# DarkIce `SinkLoop`: a rotating sink decorator

Shallow embedding of `src/SinkLoop.h`.

* C `unsigned int` values (`limit`, `written`, `seconds`, byte counts) are natural numbers;
  the two places where the source does unsigned arithmetic (`written += ret`, `limit + 1`)
  reduce modulo `2 ^ 32`.
* C `int` values (`prevModulus`, `firstPass`, the local `modulus`) are integers; the
  conversion of `time(NULL) % seconds` to `int` is `toInt`.
* `Ref<Sink> targetSink` is a reference: the decorator stores the identity of its target,
  and the states of all sinks live in a world `σ` that every operation threads through.
  The sink interface itself (`Sink.h`) is a parameter `Sink σ`.
* `time(NULL)` is an input of `write`.
-/

namespace DarkIce

/-! ## Machine integers -/

/-- Number of values of a C `unsigned int`. -/
def UINT_SIZE : Nat := 2 ^ 32

/-- Conversion of an integer value to a 32-bit two's complement `int`. -/
def toInt (x : Int) : Int := (x + 2 ^ 31) % 2 ^ 32 - 2 ^ 31

/-- The expression `time(NULL) % seconds` stored into `int modulus`: `time_t` is a signed
64-bit `long`, `seconds` is promoted to `long`, `%` truncates toward zero, and the result is
converted to `int`. -/
def timeModulus (now : Int) (seconds : Nat) : Int := toInt (Int.tmod now (seconds : Int))

/-! ## The wrapped sink -/

/-- Modelled from the spec: the abstract byte-sink interface of `Sink.h`, which is not among
the sources ("operations to open, query open state, poll-with-timeout for write readiness,
write bytes (partial writes allowed), flush buffered data, close, and perform an out-of-band
cut"). Every operation takes the identity of the sink it is called on and the world holding
the states of all sinks; `isOpen` is a `const` query. The operations are the calls that
return: the decorator catches nothing, so a target call that throws ends the decorator's
operation at that point with the fields as they were. -/
structure Sink (σ : Type) where
  «open» : Nat → σ → Bool × σ
  isOpen : Nat → σ → Bool
  canWrite : Nat → Nat → Nat → σ → Bool × σ
  write : Nat → Nat → Nat → σ → Nat × σ
  flush : Nat → σ → σ
  close : Nat → σ → σ
  cut : Nat → σ → σ

/-- The operations a sink can receive, with their arguments. -/
inductive Op where
  | «open»
  | canWrite (sec usec : Nat)
  | write (buf len : Nat)
  | flush
  | close
  | cut
  deriving DecidableEq, Repr

/-- One call received by the sink `target`. -/
structure Call where
  target : Nat
  op : Op
  deriving DecidableEq, Repr

/-- Any sink, observed: every state-changing call is appended to a log, oldest first, and
then delegated unchanged. -/
def logged {σ : Type} (S : Sink σ) : Sink (σ × List Call) where
  «open» := fun t w => ((S.open t w.1).1, ((S.open t w.1).2, w.2 ++ [⟨t, Op.open⟩]))
  isOpen := fun t w => S.isOpen t w.1
  canWrite := fun t sec usec w =>
    ((S.canWrite t sec usec w.1).1, ((S.canWrite t sec usec w.1).2, w.2 ++ [⟨t, Op.canWrite sec usec⟩]))
  write := fun t buf len w =>
    ((S.write t buf len w.1).1, ((S.write t buf len w.1).2, w.2 ++ [⟨t, Op.write buf len⟩]))
  flush := fun t w => (S.flush t w.1, w.2 ++ [⟨t, Op.flush⟩])
  close := fun t w => (S.close t w.1, w.2 ++ [⟨t, Op.close⟩])
  cut := fun t w => (S.cut t w.1, w.2 ++ [⟨t, Op.cut⟩])

/-- State of a simple concrete sink used to run the decorator on examples. -/
structure Mock where
  opened : Bool
  openOk : Bool
  cap : Nat
  deriving DecidableEq, Repr

/-- A concrete sink: `open` answers `openOk`, `write` accepts at most `cap` bytes of the
requested length, `canWrite` answers whether the sink is open. -/
def mockSink : Sink Mock where
  «open» := fun _ w => (w.openOk, { w with opened := w.openOk })
  isOpen := fun _ w => w.opened
  canWrite := fun _ _ _ w => (w.opened, w)
  write := fun _ _ len w => (min len w.cap, w)
  flush := fun _ w => w
  close := fun _ w => { w with opened := false }
  cut := fun _ w => w

/-! ## The decorator -/

/-- The exception object thrown by the source, `Exception(__FILE__, __LINE__)`. -/
structure Exception where
  line : Nat
  deriving DecidableEq, Repr

/-- The data members of `class SinkLoop`. -/
structure SinkLoop where
  targetSink : Nat
  limit : Nat
  written : Nat
  seconds : Nat
  prevModulus : Int
  firstPass : Int
  deriving DecidableEq, Repr

/-- Method `SinkLoop::init`: throws when the limit is zero, otherwise establishes all fields. -/
def SinkLoop.init (targetSink dataLimit breakSeconds : Nat) : Except Exception SinkLoop :=
  if dataLimit ≤ 0 then
    Except.error ⟨87⟩
  else
    Except.ok
      { targetSink := targetSink
        limit := dataLimit
        written := 0
        seconds := breakSeconds
        prevModulus := -1
        firstPass := 1 }

/-- The constructor `SinkLoop(targetSink, dataLimit, breakSeconds)`. -/
def SinkLoop.new3 (targetSink dataLimit breakSeconds : Nat) : Except Exception SinkLoop :=
  SinkLoop.init targetSink dataLimit breakSeconds

/-- The constructor `SinkLoop(targetSink, dataLimit)`. -/
def SinkLoop.new2 (targetSink dataLimit : Nat) : Except Exception SinkLoop :=
  SinkLoop.init targetSink dataLimit 0

/-- The copy constructor `SinkLoop(const SinkLoop & cs)`. -/
def SinkLoop.copy (cs : SinkLoop) : Except Exception SinkLoop :=
  SinkLoop.init cs.targetSink cs.limit cs.seconds

/-- Method `SinkLoop::isOpen`. -/
def SinkLoop.isOpen {σ : Type} (S : Sink σ) (s : SinkLoop) (w : σ) : Bool :=
  S.isOpen s.targetSink w

/-- Method `SinkLoop::flush`. -/
def SinkLoop.flush {σ : Type} (S : Sink σ) (s : SinkLoop) (w : σ) : SinkLoop × σ :=
  (s, S.flush s.targetSink w)

/-- Method `SinkLoop::close`. -/
def SinkLoop.close {σ : Type} (S : Sink σ) (s : SinkLoop) (w : σ) : SinkLoop × σ :=
  ({ s with firstPass := 1 }, S.close s.targetSink w)

/-- Method `SinkLoop::cut`. -/
def SinkLoop.cut {σ : Type} (S : Sink σ) (s : SinkLoop) (w : σ) : SinkLoop × σ :=
  (s, S.cut s.targetSink w)

/-- Method `SinkLoop::canWrite`. -/
def SinkLoop.canWrite {σ : Type} (S : Sink σ) (s : SinkLoop) (w : σ) (sec usec : Nat) :
    Bool × SinkLoop × σ :=
  ((S.canWrite s.targetSink sec usec w).1, s, (S.canWrite s.targetSink sec usec w).2)

/-- Method `SinkLoop::open`. -/
def SinkLoop.open {σ : Type} (S : Sink σ) (s : SinkLoop) (w : σ) : Bool × SinkLoop × σ :=
  let w1 :=
    if SinkLoop.isOpen S s w then
      S.close s.targetSink (SinkLoop.flush S s w).2
    else w
  let written := if s.firstPass ≠ 0 ∧ s.seconds > 0 then (s.limit + 1) % UINT_SIZE else 0
  let s1 := { s with written := written, firstPass := 0, prevModulus := -1 }
  ((S.open s1.targetSink w1).1, s1, (S.open s1.targetSink w1).2)

/-- Method `SinkLoop::write`; `buf` is the pointer passed through to the target, `now` is the value
`time(NULL)` returns when the call asks for it. -/
def SinkLoop.write {σ : Type} (S : Sink σ) (s : SinkLoop) (w : σ) (buf len : Nat)
    (now : Int) : Nat × SinkLoop × σ :=
  let ret := (S.write s.targetSink buf len w).1
  let w1 := (S.write s.targetSink buf len w).2
  let s1 := { s with written := (s.written + ret) % UINT_SIZE }
  if s1.written ≥ s1.limit then
    if s1.seconds > 0 then
      let modulus := timeModulus now s1.seconds
      if modulus < s1.prevModulus then
        (ret, (SinkLoop.open S s1 w1).2)
      else
        (ret, { s1 with prevModulus := modulus }, w1)
    else
      (ret, (SinkLoop.open S s1 w1).2)
  else
    (ret, s1, w1)

/-- Method `SinkLoop::strip`. -/
def SinkLoop.strip {σ : Type} (S : Sink σ) (s : SinkLoop) (w : σ) : SinkLoop × σ :=
  if SinkLoop.isOpen S s w then SinkLoop.close S s w else (s, w)

/-- Method `SinkLoop::operator=`; `sameObject` is the outcome of the address comparison
`this == &cs` (when it holds, `cs` is the object assigned to). -/
def SinkLoop.assign {σ : Type} (S : Sink σ) (this cs : SinkLoop) (sameObject : Bool) (w : σ) :
    Except Exception (SinkLoop × σ) :=
  if sameObject then
    Except.ok (this, w)
  else
    let w1 := (SinkLoop.strip S this w).2
    match SinkLoop.init cs.targetSink cs.limit cs.seconds with
    | Except.error e => Except.error e
    | Except.ok s => Except.ok (s, w1)

/-- The sink `S` with the answer of every `open` call replaced by `b`; the effect of the call
on the sinks is kept. -/
def withOpenAnswer {σ : Type} (S : Sink σ) (b : Bool) : Sink σ :=
  { S with «open» := fun t w => (b, (S.open t w).2) }

/-! ## Observed runs of writes -/

/-- The arguments of one `write` call and the clock value it can read. -/
structure Input where
  buf : Nat
  len : Nat
  now : Int
  deriving DecidableEq, Repr

/-- What one `write` call shows: the value it returned, the calls the sinks received during
it (oldest first), and the decorator afterwards. -/
structure Obs where
  ret : Nat
  calls : List Call
  after : SinkLoop
  deriving DecidableEq, Repr

/-- The decorator's target received an `open` call during the write. Every rotation ends
with one; that the sink is flushed and closed before it is stated on the calls themselves
(`rotationCalls`). -/
def Obs.reopened (o : Obs) : Bool := o.calls.contains ⟨o.after.targetSink, Op.open⟩

/-- One observed `write`: the call is run on the logged sink, starting from an empty log. -/
def observe {σ : Type} (S : Sink σ) (s : SinkLoop) (w : σ) (i : Input) : Obs :=
  { ret := (SinkLoop.write (logged S) s (w, []) i.buf i.len i.now).1
    calls := (SinkLoop.write (logged S) s (w, []) i.buf i.len i.now).2.2.2
    after := (SinkLoop.write (logged S) s (w, []) i.buf i.len i.now).2.1 }

/-- A run of successive `write` calls, each one observed. -/
def trace {σ : Type} (S : Sink σ) : SinkLoop → σ → List Input → List Obs
  | _, _, [] => []
  | s, w, i :: is =>
    observe S s w i ::
      trace S (SinkLoop.write S s w i.buf i.len i.now).2.1
        (SinkLoop.write S s w i.buf i.len i.now).2.2 is

/-! ## Rotation, as the specification words it -/

/-- The calls a rotation sends to the sink `t`: closing and reopening it. A sink that is
open is flushed and closed, and then the sink is opened; `targetOpen` tells whether it was
open. -/
def rotationCalls (t : Nat) (targetOpen : Bool) : List Call :=
  if targetOpen then [⟨t, Op.flush⟩, ⟨t, Op.close⟩, ⟨t, Op.open⟩] else [⟨t, Op.open⟩]

/-- The sinks after a rotation of the sink `t`. -/
def rotationWorld {σ : Type} (S : Sink σ) (t : Nat) (w : σ) : σ :=
  (S.open t (if S.isOpen t w then S.close t (S.flush t w) else w)).2

/-! ## Size-based rotation, as the specification words it -/

/-- Size-based rotation of the sink `t` in the words of the specification: every write is
forwarded in full, the count the sink reports is added to the cumulative count of the
segment (`acc`, counted without bound), and when that count reaches `limit` the sink is
rotated and a new segment starts at 0. For each write: the value returned, the calls the
sink receives, and the counter afterwards. -/
def sizeSpec {σ : Type} (S : Sink σ) (t limit : Nat) : Nat → σ → List Input →
    List (Nat × List Call × Nat)
  | _, _, [] => []
  | acc, w, i :: is =>
    if limit ≤ acc + (S.write t i.buf i.len w).1 then
      ((S.write t i.buf i.len w).1,
        ⟨t, Op.write i.buf i.len⟩ :: rotationCalls t (S.isOpen t (S.write t i.buf i.len w).2),
        0) ::
        sizeSpec S t limit 0 (rotationWorld S t (S.write t i.buf i.len w).2) is
    else
      ((S.write t i.buf i.len w).1, [⟨t, Op.write i.buf i.len⟩],
        acc + (S.write t i.buf i.len w).1) ::
        sizeSpec S t limit (acc + (S.write t i.buf i.len w).1) (S.write t i.buf i.len w).2 is


/-- The cumulative byte count at each write: the sum of the counts reported since the
previous (re)open, counted without bound; a count that reaches `limit` starts a new segment. -/
def cumulative (limit : Nat) : Nat → List Nat → List Nat
  | _, [] => []
  | acc, r :: rs => (acc + r) :: cumulative limit (if limit ≤ acc + r then 0 else acc + r) rs

/-! ## Time-aligned rotation, as the specification words it -/

/-- No modulus of the list is strictly below the modulus recorded just before it, starting
from the recorded modulus `p`. -/
def neverDecreases : Int → List Int → Bool
  | _, [] => true
  | p, m :: ms => decide (p ≤ m) && neverDecreases m ms

/-! ## Sequences of calls -/

/-- The calls a user of the decorator can make. -/
inductive Cmd where
  | «open»
  | write (i : Input)
  | flush
  | close
  | cut
  | canWrite (sec usec : Nat)
  | isOpen
  deriving DecidableEq, Repr

/-- One call on the decorator: the decorator and the sinks afterwards (`isOpen` is a `const`
query and changes neither). -/
def step {σ : Type} (S : Sink σ) (s : SinkLoop) (w : σ) : Cmd → SinkLoop × σ
  | Cmd.open => (SinkLoop.open S s w).2
  | Cmd.write i => (SinkLoop.write S s w i.buf i.len i.now).2
  | Cmd.flush => SinkLoop.flush S s w
  | Cmd.close => SinkLoop.close S s w
  | Cmd.cut => SinkLoop.cut S s w
  | Cmd.canWrite sec usec => (SinkLoop.canWrite S s w sec usec).2
  | Cmd.isOpen => (s, w)

/-- A sequence of calls on the decorator, in order. -/
def run {σ : Type} (S : Sink σ) : SinkLoop → σ → List Cmd → SinkLoop × σ
  | s, w, [] => (s, w)
  | s, w, c :: cs => run S (step S s w c).1 (step S s w c).2 cs

/-! ## The reporter (`src/Reporter.h`) -/

/-- The static members of `class Reporter`: the verbosity shared by all reporters and the
output stream `*os`, held as the text written to it so far (a stream in good state with its
default formatting). -/
structure Reporter where
  verbosity : Nat
  os : String
  deriving DecidableEq, Repr

/-- Method `Reporter::reportEvent(verbosity, message)`; `pid` is the value of `getpid()`. -/
def Reporter.reportEvent (r : Reporter) (pid : Int) (verbosity : Nat) (message : String) :
    Reporter :=
  if r.verbosity ≥ verbosity then
    { r with os := r.os ++ toString pid ++ ": " ++ message ++ "\n" }
  else r

/-- Method `Reporter::reportEvent(verbosity, message1, t)` for a value `t` of any type `T`;
`fmt` is the text `operator<<` writes for a `T`. -/
def Reporter.reportEventT {T : Type} (fmt : T → String) (r : Reporter) (pid : Int)
    (verbosity : Nat) (message1 : String) (t : T) : Reporter :=
  if r.verbosity ≥ verbosity then
    { r with os := r.os ++ toString pid ++ ": " ++ message1 ++ " " ++ fmt t ++ "\n" }
  else r

/-! ## Helper lemmas -/

theorem open_fields {σ : Type} (S : Sink σ) (s : SinkLoop) (w : σ) :
    (SinkLoop.open S s w).2.1 =
      { s with
        written := if s.firstPass ≠ 0 ∧ s.seconds > 0 then (s.limit + 1) % UINT_SIZE else 0
        firstPass := 0
        prevModulus := -1 } := rfl

theorem open_logged_calls {σ : Type} (S : Sink σ) (s : SinkLoop) (w : σ) (l : List Call) :
    (SinkLoop.open (logged S) s (w, l)).2.2.2 =
      l ++ (if S.isOpen s.targetSink w then
              [⟨s.targetSink, Op.flush⟩, ⟨s.targetSink, Op.close⟩, ⟨s.targetSink, Op.open⟩]
            else [⟨s.targetSink, Op.open⟩]) := by
  by_cases h : S.isOpen s.targetSink w <;>
    simp [SinkLoop.open, SinkLoop.isOpen, SinkLoop.flush, logged, h]

theorem observe_size {σ : Type} (S : Sink σ) (s : SinkLoop) (w : σ) (i : Input)
    (hsec : s.seconds = 0) (hc : s.written + (S.write s.targetSink i.buf i.len w).1 < UINT_SIZE) :
    (observe S s w i).ret = (S.write s.targetSink i.buf i.len w).1 ∧
    (observe S s w i).reopened =
      decide (s.limit ≤ s.written + (S.write s.targetSink i.buf i.len w).1) ∧
    (observe S s w i).after.written =
      (if s.limit ≤ s.written + (S.write s.targetSink i.buf i.len w).1 then 0
       else s.written + (S.write s.targetSink i.buf i.len w).1) := by
  have hmod : (s.written + (S.write s.targetSink i.buf i.len w).1) % UINT_SIZE =
      s.written + (S.write s.targetSink i.buf i.len w).1 := Nat.mod_eq_of_lt hc
  by_cases h : s.limit ≤ s.written + (S.write s.targetSink i.buf i.len w).1
  · by_cases ho : S.isOpen s.targetSink (S.write s.targetSink i.buf i.len w).2 <;>
      simp [observe, Obs.reopened, SinkLoop.write, SinkLoop.open, SinkLoop.isOpen,
        SinkLoop.flush, logged, hsec, hmod, h, ho]
  · simp [observe, Obs.reopened, SinkLoop.write, logged, hsec, hmod, h]

theorem write_ret {σ : Type} (S : Sink σ) (s : SinkLoop) (w : σ) (buf len : Nat) (now : Int) :
    (SinkLoop.write S s w buf len now).1 = (S.write s.targetSink buf len w).1 := by
  unfold SinkLoop.write
  simp only []
  split_ifs <;> rfl

theorem write_logged {σ : Type} (S : Sink σ) (s : SinkLoop) (w : σ) (l : List Call)
    (buf len : Nat) (now : Int) :
    (SinkLoop.write (logged S) s (w, l) buf len now).1 = (SinkLoop.write S s w buf len now).1 ∧
    (SinkLoop.write (logged S) s (w, l) buf len now).2.1 =
      (SinkLoop.write S s w buf len now).2.1 ∧
    (SinkLoop.write (logged S) s (w, l) buf len now).2.2.1 =
      (SinkLoop.write S s w buf len now).2.2 := by
  by_cases h1 : s.limit ≤ (s.written + (S.write s.targetSink buf len w).1) % UINT_SIZE <;>
  by_cases h2 : 0 < s.seconds <;>
  by_cases h3 : timeModulus now s.seconds < s.prevModulus <;>
  by_cases ho : S.isOpen s.targetSink (S.write s.targetSink buf len w).2 <;>
    simp [SinkLoop.write, SinkLoop.open, SinkLoop.isOpen, SinkLoop.flush, logged, h1, h2, h3, ho]

theorem observe_after {σ : Type} (S : Sink σ) (s : SinkLoop) (w : σ) (i : Input) :
    (observe S s w i).after = (SinkLoop.write S s w i.buf i.len i.now).2.1 :=
  (write_logged S s w [] i.buf i.len i.now).2.1

theorem write_frame {σ : Type} (S : Sink σ) (s : SinkLoop) (w : σ) (buf len : Nat) (now : Int) :
    (SinkLoop.write S s w buf len now).2.1.targetSink = s.targetSink ∧
    (SinkLoop.write S s w buf len now).2.1.limit = s.limit ∧
    (SinkLoop.write S s w buf len now).2.1.seconds = s.seconds := by
  unfold SinkLoop.write
  simp only []
  split_ifs <;> simp [SinkLoop.open]

theorem trace_size {σ : Type} (S : Sink σ) (inputs : List Input) :
    ∀ (s : SinkLoop) (w : σ), s.seconds = 0 →
      (∀ c ∈ cumulative s.limit s.written ((trace S s w inputs).map Obs.ret), c < UINT_SIZE) →
      (trace S s w inputs).map (fun o => (o.reopened, o.after.written)) =
        (cumulative s.limit s.written ((trace S s w inputs).map Obs.ret)).map
          (fun c => (decide (s.limit ≤ c), if s.limit ≤ c then 0 else c)) := by
  induction inputs with
  | nil => intro s w _ _; rfl
  | cons i is ih =>
    intro s w hsec hnw
    have hret : (observe S s w i).ret = (S.write s.targetSink i.buf i.len w).1 :=
      write_ret (logged S) s (w, []) i.buf i.len i.now
    simp only [trace, List.map_cons, cumulative, hret] at hnw ⊢
    have hc : s.written + (S.write s.targetSink i.buf i.len w).1 < UINT_SIZE :=
      hnw _ (List.mem_cons_self _ _)
    obtain ⟨_, hrot, hwr⟩ := observe_size S s w i hsec hc
    obtain ⟨_, hlim, hsec2⟩ := write_frame S s w i.buf i.len i.now
    have hwr2 := hwr
    rw [observe_after] at hwr2
    have ih2 := ih (SinkLoop.write S s w i.buf i.len i.now).2.1
      (SinkLoop.write S s w i.buf i.len i.now).2.2 (by rw [hsec2, hsec])
    rw [hlim, hwr2] at ih2
    rw [hrot, hwr, ih2]
    intro c hcm
    exact hnw c (List.mem_cons_of_mem _ hcm)

/-- One observed write, case by case: the value returned, whether the target was reopened,
and the decorator afterwards. -/
theorem observe_eq {σ : Type} (S : Sink σ) (s : SinkLoop) (w : σ) (i : Input) :
    (observe S s w i).ret = (S.write s.targetSink i.buf i.len w).1 ∧
    (observe S s w i).reopened =
      decide (s.limit ≤ (s.written + (S.write s.targetSink i.buf i.len w).1) % UINT_SIZE ∧
        (s.seconds = 0 ∨ timeModulus i.now s.seconds < s.prevModulus)) ∧
    (observe S s w i).after =
      (if s.limit ≤ (s.written + (S.write s.targetSink i.buf i.len w).1) % UINT_SIZE then
        if s.seconds = 0 ∨ timeModulus i.now s.seconds < s.prevModulus then
          { s with
            written := if s.firstPass ≠ 0 ∧ s.seconds > 0 then (s.limit + 1) % UINT_SIZE else 0
            firstPass := 0
            prevModulus := -1 }
        else
          { s with
            written := (s.written + (S.write s.targetSink i.buf i.len w).1) % UINT_SIZE
            prevModulus := timeModulus i.now s.seconds }
      else
        { s with written := (s.written + (S.write s.targetSink i.buf i.len w).1) % UINT_SIZE }) := by
  refine ⟨write_ret (logged S) s (w, []) i.buf i.len i.now, ?_, ?_⟩
  · by_cases h1 : s.limit ≤ (s.written + (S.write s.targetSink i.buf i.len w).1) % UINT_SIZE <;>
    by_cases h2 : s.seconds = 0 <;>
    by_cases h3 : timeModulus i.now s.seconds < s.prevModulus <;>
    by_cases ho : S.isOpen s.targetSink (S.write s.targetSink i.buf i.len w).2 <;>
      simp [observe, Obs.reopened, SinkLoop.write, SinkLoop.open, SinkLoop.isOpen,
        SinkLoop.flush, logged, h1, h2, h3, ho, Nat.pos_of_ne_zero]
  · by_cases h1 : s.limit ≤ (s.written + (S.write s.targetSink i.buf i.len w).1) % UINT_SIZE <;>
    by_cases h2 : s.seconds = 0 <;>
    by_cases h3 : timeModulus i.now s.seconds < s.prevModulus <;>
      simp [observe, SinkLoop.write, SinkLoop.open, logged, h1, h2, h3, Nat.pos_of_ne_zero]

/-- The calls the sinks receive during one write: the write itself and, when the write
rotates, the calls of a rotation. -/
theorem observe_calls {σ : Type} (S : Sink σ) (s : SinkLoop) (w : σ) (i : Input) :
    (observe S s w i).calls =
      ⟨s.targetSink, Op.write i.buf i.len⟩ ::
        (if s.limit ≤ (s.written + (S.write s.targetSink i.buf i.len w).1) % UINT_SIZE ∧
            (s.seconds = 0 ∨ timeModulus i.now s.seconds < s.prevModulus) then
          rotationCalls s.targetSink
            (S.isOpen s.targetSink (S.write s.targetSink i.buf i.len w).2)
        else []) := by
  by_cases h1 : s.limit ≤ (s.written + (S.write s.targetSink i.buf i.len w).1) % UINT_SIZE <;>
  by_cases h2 : s.seconds = 0 <;>
  by_cases h3 : timeModulus i.now s.seconds < s.prevModulus <;>
  by_cases ho : S.isOpen s.targetSink (S.write s.targetSink i.buf i.len w).2 <;>
    simp [observe, rotationCalls, SinkLoop.write, SinkLoop.open, SinkLoop.isOpen,
      SinkLoop.flush, logged, h1, h2, h3, ho, Nat.pos_of_ne_zero]

/-- The sinks after one write: after the target's write and, when the write rotates, after
the rotation. -/
theorem write_world {σ : Type} (S : Sink σ) (s : SinkLoop) (w : σ) (buf len : Nat)
    (now : Int) :
    (SinkLoop.write S s w buf len now).2.2 =
      (if s.limit ≤ (s.written + (S.write s.targetSink buf len w).1) % UINT_SIZE ∧
          (s.seconds = 0 ∨ timeModulus now s.seconds < s.prevModulus) then
        rotationWorld S s.targetSink (S.write s.targetSink buf len w).2
      else (S.write s.targetSink buf len w).2) := by
  by_cases h1 : s.limit ≤ (s.written + (S.write s.targetSink buf len w).1) % UINT_SIZE <;>
  by_cases h2 : s.seconds = 0 <;>
  by_cases h3 : timeModulus now s.seconds < s.prevModulus <;>
  by_cases ho : S.isOpen s.targetSink (S.write s.targetSink buf len w).2 <;>
    simp [rotationWorld, SinkLoop.write, SinkLoop.open, SinkLoop.isOpen,
      SinkLoop.flush, h1, h2, h3, ho, Nat.pos_of_ne_zero]

/-- A run of writes in size mode along which the counter does not wrap does what the
specification of size-based rotation says, call by call. -/
theorem trace_sizeSpec {σ : Type} (S : Sink σ) (inputs : List Input) :
    ∀ (s : SinkLoop) (w : σ), s.seconds = 0 →
      (∀ c ∈ cumulative s.limit s.written ((trace S s w inputs).map Obs.ret), c < UINT_SIZE) →
      (trace S s w inputs).map (fun o => (o.ret, o.calls, o.after.written)) =
        sizeSpec S s.targetSink s.limit s.written w inputs := by
  induction inputs with
  | nil => intro s w _ _; rfl
  | cons i is ih =>
    intro s w hsec hnw
    obtain ⟨hret, _, haft⟩ := observe_eq S s w i
    have hcalls := observe_calls S s w i
    have hworld := write_world S s w i.buf i.len i.now
    obtain ⟨htgt, hlim, hsec2⟩ := write_frame S s w i.buf i.len i.now
    simp only [trace, List.map_cons, cumulative, hret] at hnw
    have hc : s.written + (S.write s.targetSink i.buf i.len w).1 < UINT_SIZE :=
      hnw _ (List.mem_cons_self _ _)
    have hmod := Nat.mod_eq_of_lt hc
    have hw2 : (SinkLoop.write S s w i.buf i.len i.now).2.1.written =
        (if s.limit ≤ s.written + (S.write s.targetSink i.buf i.len w).1 then 0
         else s.written + (S.write s.targetSink i.buf i.len w).1) := by
      rw [← observe_after, haft]
      by_cases h : s.limit ≤ s.written + (S.write s.targetSink i.buf i.len w).1 <;>
        simp [hmod, h, hsec]
    have ih2 := ih (SinkLoop.write S s w i.buf i.len i.now).2.1
      (SinkLoop.write S s w i.buf i.len i.now).2.2 (by rw [hsec2, hsec])
      (by
        rw [hlim, hw2]
        intro c hcm
        exact hnw c (List.mem_cons_of_mem _ hcm))
    simp only [trace, List.map_cons, sizeSpec]
    rw [ih2, hret, hcalls, observe_after, htgt, hlim, hw2, hworld]
    by_cases h : s.limit ≤ s.written + (S.write s.targetSink i.buf i.len w).1 <;>
      simp [hmod, h, hsec]

/-- A run of writes in time-aligned mode from an armed state, along which the moduli never
decrease and the counter does not wrap, followed by one more write. -/
theorem trace_time {σ : Type} (S : Sink σ) (pre : List Input) (x : Input) :
    ∀ (s : SinkLoop) (w : σ), 0 < s.seconds → s.limit ≤ s.written →
      s.written + ((trace S s w (pre ++ [x])).map Obs.ret).sum < UINT_SIZE →
      neverDecreases s.prevModulus (pre.map (fun i => timeModulus i.now s.seconds)) = true →
      (trace S s w (pre ++ [x])).map (fun o => (o.reopened, o.after.prevModulus)) =
        pre.map (fun i => (false, timeModulus i.now s.seconds)) ++
          [if timeModulus x.now s.seconds <
                (pre.map (fun i => timeModulus i.now s.seconds)).getLastD s.prevModulus
            then (true, -1) else (false, timeModulus x.now s.seconds)] := by
  induction pre with
  | nil =>
    intro s w hsec harm hnw _
    obtain ⟨hret, hrot, haft⟩ := observe_eq S s w x
    simp only [List.nil_append, trace, List.map_cons, List.map_nil, List.sum_cons,
      List.sum_nil, hret, Nat.add_zero] at hnw
    have hmod := Nat.mod_eq_of_lt hnw
    have h1 : s.limit ≤ s.written + (S.write s.targetSink x.buf x.len w).1 := by omega
    have h2 : s.seconds ≠ 0 := by omega
    by_cases h3 : timeModulus x.now s.seconds < s.prevModulus <;>
      simp [trace, hrot, haft, hmod, h1, h2, h3]
  | cons i is ih =>
    intro s w hsec harm hnw hch
    obtain ⟨hret, hrot, haft⟩ := observe_eq S s w i
    obtain ⟨_, hlim, hsec2⟩ := write_frame S s w i.buf i.len i.now
    simp only [List.map_cons, neverDecreases, Bool.and_eq_true, decide_eq_true_eq] at hch
    obtain ⟨hle, hch⟩ := hch
    have htr : trace S s w (i :: is ++ [x]) = observe S s w i ::
        trace S (SinkLoop.write S s w i.buf i.len i.now).2.1
          (SinkLoop.write S s w i.buf i.len i.now).2.2 (is ++ [x]) := rfl
    rw [htr] at hnw ⊢
    rw [List.map_cons, List.sum_cons, hret] at hnw
    have hc : s.written + (S.write s.targetSink i.buf i.len w).1 < UINT_SIZE := by omega
    have hmod := Nat.mod_eq_of_lt hc
    have h1 : s.limit ≤ s.written + (S.write s.targetSink i.buf i.len w).1 := by omega
    have h2 : s.seconds ≠ 0 := by omega
    have h3 : ¬ timeModulus i.now s.seconds < s.prevModulus := by omega
    rw [observe_after] at haft
    simp only [hmod, h1, h2, h3, if_true, if_false, false_or] at haft
    have hw2 : (SinkLoop.write S s w i.buf i.len i.now).2.1.written =
        s.written + (S.write s.targetSink i.buf i.len w).1 := by rw [haft]
    have hpm : (SinkLoop.write S s w i.buf i.len i.now).2.1.prevModulus =
        timeModulus i.now s.seconds := by rw [haft]
    have ih2 := ih (SinkLoop.write S s w i.buf i.len i.now).2.1
      (SinkLoop.write S s w i.buf i.len i.now).2.2 (by rw [hsec2]; exact hsec)
      (by rw [hw2, hlim]; exact h1)
      (by rw [hw2]; omega)
      (by rw [hsec2, hpm]; exact hch)
    rw [hsec2, hpm] at ih2
    have hrot2 : (observe S s w i).reopened = false := by
      rw [hrot]; simp [h3, h2]
    have haft2 : (observe S s w i).after.prevModulus = timeModulus i.now s.seconds := by
      rw [observe_after, hpm]
    rw [List.map_cons, ih2, hrot2, haft2, List.map_cons, List.map_cons, List.getLastD_cons,
      List.cons_append]

/-- The calls of a run of writes in time-aligned mode from an armed state, along which the
moduli never decrease and the counter does not wrap, followed by one more write: only the
last write can rotate, and it does so with the calls of a rotation. -/
theorem trace_time_calls {σ : Type} (S : Sink σ) (pre : List Input) (x : Input) :
    ∀ (s : SinkLoop) (w : σ), 0 < s.seconds → s.limit ≤ s.written →
      s.written + ((trace S s w (pre ++ [x])).map Obs.ret).sum < UINT_SIZE →
      neverDecreases s.prevModulus (pre.map (fun i => timeModulus i.now s.seconds)) = true →
      (trace S s w (pre ++ [x])).map Obs.calls =
        pre.map (fun i => [(⟨s.targetSink, Op.write i.buf i.len⟩ : Call)]) ++
          [⟨s.targetSink, Op.write x.buf x.len⟩ ::
            (if timeModulus x.now s.seconds <
                (pre.map (fun i => timeModulus i.now s.seconds)).getLastD s.prevModulus
              then rotationCalls s.targetSink (S.isOpen s.targetSink
                (S.write s.targetSink x.buf x.len (run S s w (pre.map Cmd.write)).2).2)
              else [])] := by
  induction pre with
  | nil =>
    intro s w hsec harm hnw _
    obtain ⟨hret, _, _⟩ := observe_eq S s w x
    have hcalls := observe_calls S s w x
    simp only [List.nil_append, trace, List.map_cons, List.map_nil, List.sum_cons,
      List.sum_nil, hret, Nat.add_zero] at hnw
    have hmod := Nat.mod_eq_of_lt hnw
    have h1 : s.limit ≤ s.written + (S.write s.targetSink x.buf x.len w).1 := by omega
    have h2 : s.seconds ≠ 0 := by omega
    simp [trace, run, hcalls, hmod, h1, h2]
  | cons i is ih =>
    intro s w hsec harm hnw hch
    obtain ⟨hret, _, haft⟩ := observe_eq S s w i
    have hcalls := observe_calls S s w i
    obtain ⟨htgt, hlim, hsec2⟩ := write_frame S s w i.buf i.len i.now
    simp only [List.map_cons, neverDecreases, Bool.and_eq_true, decide_eq_true_eq] at hch
    obtain ⟨hle, hch⟩ := hch
    have htr : trace S s w (i :: is ++ [x]) = observe S s w i ::
        trace S (SinkLoop.write S s w i.buf i.len i.now).2.1
          (SinkLoop.write S s w i.buf i.len i.now).2.2 (is ++ [x]) := rfl
    have hrun : run S s w ((i :: is).map Cmd.write) =
        run S (SinkLoop.write S s w i.buf i.len i.now).2.1
          (SinkLoop.write S s w i.buf i.len i.now).2.2 (is.map Cmd.write) := rfl
    rw [htr] at hnw ⊢
    rw [List.map_cons, List.sum_cons, hret] at hnw
    have hc : s.written + (S.write s.targetSink i.buf i.len w).1 < UINT_SIZE := by omega
    have hmod := Nat.mod_eq_of_lt hc
    have h1 : s.limit ≤ s.written + (S.write s.targetSink i.buf i.len w).1 := by omega
    have h2 : s.seconds ≠ 0 := by omega
    have h3 : ¬ timeModulus i.now s.seconds < s.prevModulus := by omega
    rw [observe_after] at haft
    simp only [hmod, h1, h2, h3, if_true, if_false, false_or] at haft
    have hw2 : (SinkLoop.write S s w i.buf i.len i.now).2.1.written =
        s.written + (S.write s.targetSink i.buf i.len w).1 := by rw [haft]
    have hpm : (SinkLoop.write S s w i.buf i.len i.now).2.1.prevModulus =
        timeModulus i.now s.seconds := by rw [haft]
    have ih2 := ih (SinkLoop.write S s w i.buf i.len i.now).2.1
      (SinkLoop.write S s w i.buf i.len i.now).2.2 (by rw [hsec2]; exact hsec)
      (by rw [hw2, hlim]; exact h1)
      (by rw [hw2]; omega)
      (by rw [hsec2, hpm]; exact hch)
    rw [hsec2, hpm, htgt] at ih2
    have hcalls2 : (observe S s w i).calls = [⟨s.targetSink, Op.write i.buf i.len⟩] := by
      rw [hcalls]; simp [h3, h2]
    rw [List.map_cons, ih2, hcalls2, hrun, List.map_cons, List.map_cons, List.getLastD_cons,
      List.cons_append]

/-! ## Construction -/

/-- C4: construction fails exactly when the byte limit is 0. With `dataLimit = 0` both
constructors throw and yield no instance; with a positive limit (`n + 1`) they succeed with
`limit = dataLimit`, `written = 0`, `prevModulus = -1`, `firstPass` set and
`seconds = breakSeconds` (`0` for the two-argument constructor). -/
theorem construction_fails_iff_limit_zero (targetSink n breakSeconds : Nat) :
    SinkLoop.new3 targetSink 0 breakSeconds = Except.error ⟨87⟩ ∧
    SinkLoop.new2 targetSink 0 = Except.error ⟨87⟩ ∧
    SinkLoop.new3 targetSink (n + 1) breakSeconds =
      Except.ok ⟨targetSink, n + 1, 0, breakSeconds, -1, 1⟩ ∧
    SinkLoop.new2 targetSink (n + 1) = Except.ok ⟨targetSink, n + 1, 0, 0, -1, 1⟩ := by
  simp [SinkLoop.new3, SinkLoop.new2, SinkLoop.init]

/-! ## Size-based rotation -/

/-- C1 (as amended): for a decorator constructed with `limit > 0` and `seconds = 0` and then
opened, and every run of writes in which the cumulative count since the previous (re)open
never reaches `2 ^ 32`, a write rotates exactly when that cumulative count reaches or exceeds
`limit`. A rotating write sends the target, after the write itself, the calls of a rotation
(`flush` and `close` if it is open, then `open`) and leaves `written = 0`; every other write
sends the target the write alone and leaves `written` = the cumulative count. -/
theorem size_rotation_exact {σ : Type} (S : Sink σ) (t limit : Nat) (b : Bool)
    (s0 s : SinkLoop) (w w1 : σ) (inputs : List Input)
    (hnew : SinkLoop.new3 t limit 0 = Except.ok s0)
    (hopen : SinkLoop.open S s0 w = (b, s, w1))
    (hnw : ∀ c ∈ cumulative limit 0 ((trace S s w1 inputs).map Obs.ret), c < UINT_SIZE) :
    (trace S s w1 inputs).map (fun o => (o.ret, o.calls, o.after.written)) =
      sizeSpec S t limit 0 w1 inputs ∧
    (trace S s w1 inputs).map (fun o => (o.reopened, o.after.written)) =
      (cumulative limit 0 ((trace S s w1 inputs).map Obs.ret)).map
        (fun c => (decide (limit ≤ c), if limit ≤ c then 0 else c)) := by
  have hs0 : s0 = ⟨t, limit, 0, 0, -1, 1⟩ := by
    unfold SinkLoop.new3 SinkLoop.init at hnew
    split_ifs at hnew
    exact (Except.ok.inj hnew).symm
  have hs : s = ⟨t, limit, 0, 0, -1, 0⟩ := by
    have h := congrArg (fun r => r.2.1) hopen
    simp only [open_fields] at h
    rw [← h, hs0]
    simp
  subst hs
  exact ⟨trace_sizeSpec S inputs _ w1 rfl hnw, trace_size S inputs _ w1 rfl hnw⟩

/-- C1, the example of the specification: limit 100, writes of 60 then 60 accepted in full;
the second write rotates (the open target is flushed, closed and opened) and the counter is 0
afterwards. -/
theorem size_rotation_exact_witness :
    SinkLoop.new3 7 100 0 = Except.ok ⟨7, 100, 0, 0, -1, 1⟩ ∧
    SinkLoop.open mockSink ⟨7, 100, 0, 0, -1, 1⟩ ⟨false, true, 4096⟩ =
      (true, ⟨7, 100, 0, 0, -1, 0⟩, ⟨true, true, 4096⟩) ∧
    (trace mockSink ⟨7, 100, 0, 0, -1, 0⟩ ⟨true, true, 4096⟩
        [⟨0, 60, 0⟩, ⟨0, 60, 0⟩]).map (fun o => (o.ret, o.calls, o.after.written)) =
      [(60, [⟨7, Op.write 0 60⟩], 60),
       (60, [⟨7, Op.write 0 60⟩, ⟨7, Op.flush⟩, ⟨7, Op.close⟩, ⟨7, Op.open⟩], 0)] ∧
    (trace mockSink ⟨7, 100, 0, 0, -1, 0⟩ ⟨true, true, 4096⟩
        [⟨0, 60, 0⟩, ⟨0, 60, 0⟩]).map (fun o => (o.reopened, o.after.written)) =
      [(false, 60), (true, 0)] := by
  have h := size_rotation_exact mockSink 7 100 true ⟨7, 100, 0, 0, -1, 1⟩ ⟨7, 100, 0, 0, -1, 0⟩
    ⟨false, true, 4096⟩ ⟨true, true, 4096⟩ [⟨0, 60, 0⟩, ⟨0, 60, 0⟩] rfl rfl (by decide)
  refine ⟨rfl, rfl, ?_, ?_⟩
  · rw [h.1]; decide
  · rw [h.2]; decide

/-- C1 as stated fails when the 32-bit counter wraps: limit 100, writes of 60 and then
4294967246 bytes accepted in full. The cumulative count of the second write is
`2 ^ 32 + 10 ≥ 100`, but `written` wraps to 10 and the target receives the write alone: it is
neither closed nor reopened. -/
theorem size_rotation_wrap_counterexample :
    SinkLoop.new3 7 100 0 = Except.ok ⟨7, 100, 0, 0, -1, 1⟩ ∧
    SinkLoop.open mockSink ⟨7, 100, 0, 0, -1, 1⟩ ⟨false, true, 4294967295⟩ =
      (true, ⟨7, 100, 0, 0, -1, 0⟩, ⟨true, true, 4294967295⟩) ∧
    (trace mockSink ⟨7, 100, 0, 0, -1, 0⟩ ⟨true, true, 4294967295⟩
        [⟨0, 60, 0⟩, ⟨0, 4294967246, 0⟩]).map (fun o => (o.ret, o.reopened, o.after.written)) =
      [(60, false, 60), (4294967246, false, 10)] ∧
    (trace mockSink ⟨7, 100, 0, 0, -1, 0⟩ ⟨true, true, 4294967295⟩
        [⟨0, 60, 0⟩, ⟨0, 4294967246, 0⟩]).map Obs.calls =
      [[⟨7, Op.write 0 60⟩], [⟨7, Op.write 0 4294967246⟩]] ∧
    cumulative 100 0 [60, 4294967246] = [60, 4294967306] ∧
    (trace mockSink ⟨7, 100, 0, 0, -1, 0⟩ ⟨true, true, 4294967295⟩
        [⟨0, 60, 0⟩, ⟨0, 4294967246, 0⟩]).map (fun o => (o.reopened, o.after.written)) ≠
      (cumulative 100 0 [60, 4294967246]).map
        (fun c => (decide (100 ≤ c), if 100 ≤ c then 0 else c)) ∧
    (trace mockSink ⟨7, 100, 0, 0, -1, 0⟩ ⟨true, true, 4294967295⟩
        [⟨0, 60, 0⟩, ⟨0, 4294967246, 0⟩]).map (fun o => (o.ret, o.calls, o.after.written)) ≠
      sizeSpec mockSink 7 100 0 ⟨true, true, 4294967295⟩ [⟨0, 60, 0⟩, ⟨0, 4294967246, 0⟩] := by
  refine ⟨rfl, rfl, by decide, by decide, by decide, by decide, by decide⟩

/-! ## Time-aligned rotation -/

/-- C2 (as amended): for a decorator with `seconds > 0` in a state with `written ≥ limit`
and recorded modulus `prevModulus`, and every run of writes along which the 32-bit counter
does not wrap: as long as no modulus is below the one recorded by the previous write, no
write rotates (the target receives the write alone) and each records its own modulus; the
next write rotates exactly when its modulus is strictly below the last recorded one (an equal
modulus does not rotate), and then the target receives, after the write, the calls of a
rotation: `flush` and `close` if it is open, then `open`. -/
theorem time_rotation_first_decrease {σ : Type} (S : Sink σ) (s : SinkLoop) (w : σ)
    (pre : List Input) (x : Input)
    (hsec : 0 < s.seconds) (harmed : s.limit ≤ s.written)
    (hnw : s.written + ((trace S s w (pre ++ [x])).map Obs.ret).sum < UINT_SIZE)
    (hpre : neverDecreases s.prevModulus
      (pre.map (fun i => timeModulus i.now s.seconds)) = true) :
    (trace S s w (pre ++ [x])).map (fun o => (o.reopened, o.after.prevModulus)) =
      pre.map (fun i => (false, timeModulus i.now s.seconds)) ++
        [if timeModulus x.now s.seconds <
              (pre.map (fun i => timeModulus i.now s.seconds)).getLastD s.prevModulus
          then (true, -1) else (false, timeModulus x.now s.seconds)] ∧
    (trace S s w (pre ++ [x])).map Obs.calls =
      pre.map (fun i => [(⟨s.targetSink, Op.write i.buf i.len⟩ : Call)]) ++
        [⟨s.targetSink, Op.write x.buf x.len⟩ ::
          (if timeModulus x.now s.seconds <
              (pre.map (fun i => timeModulus i.now s.seconds)).getLastD s.prevModulus
            then rotationCalls s.targetSink (S.isOpen s.targetSink
              (S.write s.targetSink x.buf x.len (run S s w (pre.map Cmd.write)).2).2)
            else [])] :=
  ⟨trace_time S pre x s w hsec harmed hnw hpre, trace_time_calls S pre x s w hsec harmed hnw hpre⟩

/-- C2, the example of the specification: period 60, limit already exceeded, moduli 58, 59, 1:
the rotation fires exactly at the third write, which flushes, closes and opens the target. -/
theorem time_rotation_first_decrease_witness :
    [(58 : Int), 59, 1] = [timeModulus 118 60, timeModulus 119 60, timeModulus 121 60] ∧
    (trace mockSink ⟨7, 10, 11, 60, -1, 0⟩ ⟨true, true, 4096⟩
        ([⟨0, 5, 118⟩, ⟨0, 5, 119⟩] ++ [⟨0, 5, 121⟩])).map
        (fun o => (o.reopened, o.after.prevModulus)) =
      [(false, 58), (false, 59), (true, -1)] ∧
    (trace mockSink ⟨7, 10, 11, 60, -1, 0⟩ ⟨true, true, 4096⟩
        ([⟨0, 5, 118⟩, ⟨0, 5, 119⟩] ++ [⟨0, 5, 121⟩])).map Obs.calls =
      [[⟨7, Op.write 0 5⟩], [⟨7, Op.write 0 5⟩],
       [⟨7, Op.write 0 5⟩, ⟨7, Op.flush⟩, ⟨7, Op.close⟩, ⟨7, Op.open⟩]] := by
  have h := time_rotation_first_decrease mockSink ⟨7, 10, 11, 60, -1, 0⟩ ⟨true, true, 4096⟩
    [⟨0, 5, 118⟩, ⟨0, 5, 119⟩] ⟨0, 5, 121⟩ (by decide) (by decide) (by decide) (by decide)
  refine ⟨by decide, ?_, ?_⟩
  · rw [h.1]; decide
  · rw [h.2]; decide

/-- C2 as stated fails when the 32-bit counter wraps: period 60, limit 100, `written = 101`,
recorded modulus 59. A write of 4294967195 bytes accepted in full at a time with modulus
`1 < 59` brings `written` to 0, so the time is not looked at: the target receives the write
alone (no rotation), and the recorded modulus stays 59. -/
theorem time_rotation_wrap_counterexample :
    (0 < (60 : Nat) ∧ (100 : Nat) ≤ 101 ∧ timeModulus 121 60 = 1 ∧ (1 : Int) < 59) ∧
    (trace mockSink ⟨7, 100, 101, 60, 59, 0⟩ ⟨true, true, 4294967295⟩
        [⟨0, 4294967195, 121⟩]).map (fun o => (o.ret, o.reopened, o.after.written,
          o.after.prevModulus)) = [(4294967195, false, 0, 59)] ∧
    (trace mockSink ⟨7, 100, 101, 60, 59, 0⟩ ⟨true, true, 4294967295⟩
        [⟨0, 4294967195, 121⟩]).map Obs.calls = [[⟨7, Op.write 0 4294967195⟩]] ∧
    (trace mockSink ⟨7, 100, 101, 60, 59, 0⟩ ⟨true, true, 4294967295⟩
        ([] ++ [⟨0, 4294967195, 121⟩])).map (fun o => (o.reopened, o.after.prevModulus)) ≠
      [if timeModulus 121 60 < 59 then (true, -1) else (false, timeModulus 121 60)] := by
  refine ⟨by decide, by decide, by decide, by decide⟩

/-! ## Partial writes -/

/-- C3 (as amended): `write` returns exactly the byte count the target's `write` reported,
whether or not the call rotated; when the call does not rotate, `written` afterwards is
`written` before plus that count, reduced modulo `2 ^ 32`. -/
theorem write_propagates_partial {σ : Type} (S : Sink σ) (s : SinkLoop) (w : σ) (i : Input) :
    (SinkLoop.write S s w i.buf i.len i.now).1 = (S.write s.targetSink i.buf i.len w).1 ∧
    ((observe S s w i).reopened = false →
      (SinkLoop.write S s w i.buf i.len i.now).2.1.written =
        (s.written + (S.write s.targetSink i.buf i.len w).1) % UINT_SIZE) := by
  refine ⟨write_ret S s w i.buf i.len i.now, ?_⟩
  intro hrot
  obtain ⟨_, hr, ha⟩ := observe_eq S s w i
  rw [hr] at hrot
  rw [← observe_after, ha]
  by_cases h1 : s.limit ≤ (s.written + (S.write s.targetSink i.buf i.len w).1) % UINT_SIZE
  · by_cases h2 : s.seconds = 0 ∨ timeModulus i.now s.seconds < s.prevModulus
    · simp [h1, h2] at hrot
    · simp [h1, h2]
  · simp [h1]

/-- C3 on a partial write: 25 bytes requested, the target takes 10; `write` returns 10 and
the counter goes from 60 to 70. -/
theorem write_propagates_partial_witness :
    (observe mockSink ⟨7, 100, 60, 0, -1, 0⟩ ⟨true, true, 10⟩ ⟨0, 25, 0⟩).reopened = false ∧
    (SinkLoop.write mockSink ⟨7, 100, 60, 0, -1, 0⟩ ⟨true, true, 10⟩ 0 25 0).1 = 10 ∧
    (SinkLoop.write mockSink ⟨7, 100, 60, 0, -1, 0⟩ ⟨true, true, 10⟩ 0 25 0).2.1.written = 70 := by
  have h := write_propagates_partial mockSink ⟨7, 100, 60, 0, -1, 0⟩ ⟨true, true, 10⟩ ⟨0, 25, 0⟩
  refine ⟨by decide, ?_, ?_⟩
  · rw [h.1]; decide
  · rw [h.2 (by decide)]; decide

/-- C3 as stated fails when the 32-bit counter wraps: from `written = 60`, a write of
4294967246 bytes accepted in full does not rotate and leaves `written = 10`, not
`60 + 4294967246`. -/
theorem write_accumulation_wrap_counterexample :
    (observe mockSink ⟨7, 100, 60, 0, -1, 0⟩ ⟨true, true, 4294967295⟩
      ⟨0, 4294967246, 0⟩).reopened = false ∧
    (SinkLoop.write mockSink ⟨7, 100, 60, 0, -1, 0⟩ ⟨true, true, 4294967295⟩
      0 4294967246 0).1 = 4294967246 ∧
    (SinkLoop.write mockSink ⟨7, 100, 60, 0, -1, 0⟩ ⟨true, true, 4294967295⟩
      0 4294967246 0).2.1.written = 10 ∧
    (SinkLoop.write mockSink ⟨7, 100, 60, 0, -1, 0⟩ ⟨true, true, 4294967295⟩
      0 4294967246 0).2.1.written ≠ 60 + 4294967246 := by
  refine ⟨by decide, by decide, by decide, by decide⟩

/-! ## First-pass arming -/

/-- Below the largest limit, and as long as the first write does not wrap the counter, the
first open of a fresh time-aligned decorator arms it: `written = limit + 1 > limit`, and the
first write looks at the time (it rotates, or it records the modulus). -/
theorem first_open_arms_below_max {σ : Type} (S : Sink σ) (t limit seconds : Nat) (w : σ)
    (i : Input) (hlim : 0 < limit) (hmax : limit + 1 < UINT_SIZE) (hsec : 0 < seconds)
    (hc : limit + 1 + (S.write t i.buf i.len (SinkLoop.open S ⟨t, limit, 0, seconds, -1, 1⟩ w).2.2).1
      < UINT_SIZE) :
    SinkLoop.new3 t limit seconds = Except.ok ⟨t, limit, 0, seconds, -1, 1⟩ ∧
    (SinkLoop.open S ⟨t, limit, 0, seconds, -1, 1⟩ w).2.1 = ⟨t, limit, limit + 1, seconds, -1, 0⟩ ∧
    ((observe S ⟨t, limit, limit + 1, seconds, -1, 0⟩
          (SinkLoop.open S ⟨t, limit, 0, seconds, -1, 1⟩ w).2.2 i).reopened = true ∨
      (observe S ⟨t, limit, limit + 1, seconds, -1, 0⟩
          (SinkLoop.open S ⟨t, limit, 0, seconds, -1, 1⟩ w).2.2 i).after.prevModulus =
        timeModulus i.now seconds) := by
  have h0 : ¬ limit ≤ 0 := by omega
  have hs : (SinkLoop.open S ⟨t, limit, 0, seconds, -1, 1⟩ w).2.1 =
      ⟨t, limit, limit + 1, seconds, -1, 0⟩ := by
    simp [open_fields, hsec, Nat.mod_eq_of_lt hmax]
  refine ⟨by simp [SinkLoop.new3, SinkLoop.init, h0], hs, ?_⟩
  obtain ⟨_, hr, ha⟩ := observe_eq S ⟨t, limit, limit + 1, seconds, -1, 0⟩
    (SinkLoop.open S ⟨t, limit, 0, seconds, -1, 1⟩ w).2.2 i
  have hmod := Nat.mod_eq_of_lt hc
  rw [hr, ha]
  simp only [hmod]
  have h1 : limit ≤ limit + 1 +
      (S.write t i.buf i.len (SinkLoop.open S ⟨t, limit, 0, seconds, -1, 1⟩ w).2.2).1 := by omega
  have h2 : seconds ≠ 0 := by omega
  by_cases h3 : timeModulus i.now seconds < -1 <;> simp [h1, h2, h3]

/-- C5 at the largest limit: with `limit = 4294967295` and `seconds = 60` the first open
computes `limit + 1` in 32 bits and leaves `written = 0`, which is not above the limit; the
first write (10 bytes, at a time with modulus 1) then neither rotates nor records a modulus:
the time is not looked at. -/
theorem first_open_arming_overflow :
    SinkLoop.new3 7 4294967295 60 = Except.ok ⟨7, 4294967295, 0, 60, -1, 1⟩ ∧
    SinkLoop.open mockSink ⟨7, 4294967295, 0, 60, -1, 1⟩ ⟨false, true, 4096⟩ =
      (true, ⟨7, 4294967295, 0, 60, -1, 0⟩, ⟨true, true, 4096⟩) ∧
    ¬ ((SinkLoop.open mockSink ⟨7, 4294967295, 0, 60, -1, 1⟩ ⟨false, true, 4096⟩).2.1.written >
        4294967295) ∧
    timeModulus 121 60 = 1 ∧
    observe mockSink ⟨7, 4294967295, 0, 60, -1, 0⟩ ⟨true, true, 4096⟩ ⟨0, 10, 121⟩ =
      ⟨10, [⟨7, Op.write 0 10⟩], ⟨7, 4294967295, 10, 60, -1, 0⟩⟩ := by
  refine ⟨rfl, rfl, by decide, by decide, by decide⟩

/-! ## Close, copy, assignment -/

/-- What `close()` followed by `open()` does in general: from every decorator state it
leaves the decorator as the first-ever `open()` of a decorator freshly constructed with the
same target, limit and seconds leaves it, with `prevModulus = -1`, `firstPass` cleared and
`written` = `limit + 1` reduced modulo `2 ^ 32` when `seconds > 0` (so `limit + 1` for every
limit below 4294967295), `0` when `seconds = 0`. -/
theorem close_then_open_restores_first_pass {σ : Type} (S : Sink σ) (s : SinkLoop) (w w0 : σ)
    (hlim : 0 < s.limit) :
    ∃ fresh, SinkLoop.new3 s.targetSink s.limit s.seconds = Except.ok fresh ∧
      (SinkLoop.open S (SinkLoop.close S s w).1 (SinkLoop.close S s w).2).2.1 =
        (SinkLoop.open S fresh w0).2.1 ∧
      (SinkLoop.open S (SinkLoop.close S s w).1 (SinkLoop.close S s w).2).2.1.written =
        (if 0 < s.seconds then (s.limit + 1) % UINT_SIZE else 0) ∧
      (SinkLoop.open S (SinkLoop.close S s w).1 (SinkLoop.close S s w).2).2.1.prevModulus = -1 ∧
      (SinkLoop.open S (SinkLoop.close S s w).1 (SinkLoop.close S s w).2).2.1.firstPass = 0 := by
  have h0 : ¬ s.limit ≤ 0 := by omega
  refine ⟨⟨s.targetSink, s.limit, 0, s.seconds, -1, 1⟩, ?_, ?_, ?_, ?_, ?_⟩ <;>
    simp [SinkLoop.new3, SinkLoop.init, h0, open_fields, SinkLoop.close]

/-- An instance on a decorator in the middle of a segment: period 60, limit 100,
`written = 40`; after `close()` and `open()` it is armed again with `written = 101`. -/
theorem close_then_open_restores_first_pass_witness :
    (0 : Nat) < 100 ∧
    SinkLoop.new3 7 100 60 = Except.ok ⟨7, 100, 0, 60, -1, 1⟩ ∧
    (SinkLoop.open mockSink ⟨7, 100, 0, 60, -1, 1⟩ ⟨false, true, 4096⟩).2.1 =
      ⟨7, 100, 101, 60, -1, 0⟩ ∧
    (SinkLoop.open mockSink
      (SinkLoop.close mockSink ⟨7, 100, 40, 60, 17, 0⟩ ⟨true, true, 4096⟩).1
      (SinkLoop.close mockSink ⟨7, 100, 40, 60, 17, 0⟩ ⟨true, true, 4096⟩).2).2.1 =
      ⟨7, 100, 101, 60, -1, 0⟩ := by
  obtain ⟨fresh, h1, h2, _⟩ := close_then_open_restores_first_pass mockSink
    ⟨7, 100, 40, 60, 17, 0⟩ ⟨true, true, 4096⟩ ⟨false, true, 4096⟩ (by decide)
  refine ⟨by decide, rfl, rfl, ?_⟩
  rw [h2]
  have hf : fresh = ⟨7, 100, 0, 60, -1, 1⟩ := (Except.ok.inj h1).symm
  rw [hf]
  rfl

/-- C6 at the largest limit: limit 4294967295, period 60, a decorator in the middle of a
segment (`written = 40`, reached by the first open and a write of 40 bytes). After `close()`
and `open()` the decorator has `written = 0`, as after the first open of a fresh decorator,
and not `limit + 1`: it is not armed, and the next write (10 bytes at modulus 1) does not
look at the time. -/
theorem close_then_open_arming_overflow :
    SinkLoop.new3 7 4294967295 60 = Except.ok ⟨7, 4294967295, 0, 60, -1, 1⟩ ∧
    run mockSink ⟨7, 4294967295, 0, 60, -1, 1⟩ ⟨false, true, 4096⟩
      [Cmd.open, Cmd.write ⟨0, 40, 100⟩] =
      (⟨7, 4294967295, 40, 60, -1, 0⟩, ⟨true, true, 4096⟩) ∧
    run mockSink ⟨7, 4294967295, 40, 60, -1, 0⟩ ⟨true, true, 4096⟩ [Cmd.close, Cmd.open] =
      (⟨7, 4294967295, 0, 60, -1, 0⟩, ⟨true, true, 4096⟩) ∧
    (run mockSink ⟨7, 4294967295, 40, 60, -1, 0⟩ ⟨true, true, 4096⟩
      [Cmd.close, Cmd.open]).1.written ≠ 4294967295 + 1 ∧
    ¬ ((run mockSink ⟨7, 4294967295, 40, 60, -1, 0⟩ ⟨true, true, 4096⟩
      [Cmd.close, Cmd.open]).1.limit ≤
      (run mockSink ⟨7, 4294967295, 40, 60, -1, 0⟩ ⟨true, true, 4096⟩
        [Cmd.close, Cmd.open]).1.written) ∧
    (SinkLoop.open mockSink ⟨7, 4294967295, 0, 60, -1, 1⟩ ⟨false, true, 4096⟩).2.1 =
      ⟨7, 4294967295, 0, 60, -1, 0⟩ ∧
    timeModulus 121 60 = 1 ∧
    observe mockSink ⟨7, 4294967295, 0, 60, -1, 0⟩ ⟨true, true, 4096⟩ ⟨0, 10, 121⟩ =
      ⟨10, [⟨7, Op.write 0 10⟩], ⟨7, 4294967295, 10, 60, -1, 0⟩⟩ := by
  refine ⟨rfl, by decide, by decide, by decide, by decide, rfl, by decide, by decide⟩

/-- C7 (as amended): a copy-constructed decorator, and a decorator assigned from a source
that is another object, has the source's target, limit and seconds and `written = 0`,
`prevModulus = -1`, `firstPass` set, which is what a fresh construction from
(target, limit, seconds) produces, whatever the source's counters; assigning a decorator to
itself leaves it unchanged. -/
theorem copy_and_assignment_reset {σ : Type} (S : Sink σ) (this cs : SinkLoop) (w : σ)
    (hlim : 0 < cs.limit) :
    SinkLoop.new3 cs.targetSink cs.limit cs.seconds =
      Except.ok ⟨cs.targetSink, cs.limit, 0, cs.seconds, -1, 1⟩ ∧
    SinkLoop.copy cs = Except.ok ⟨cs.targetSink, cs.limit, 0, cs.seconds, -1, 1⟩ ∧
    SinkLoop.assign S this cs false w =
      Except.ok (⟨cs.targetSink, cs.limit, 0, cs.seconds, -1, 1⟩, (SinkLoop.strip S this w).2) ∧
    SinkLoop.assign S cs cs true w = Except.ok (cs, w) := by
  have h0 : ¬ cs.limit ≤ 0 := by omega
  simp [SinkLoop.new3, SinkLoop.copy, SinkLoop.assign, SinkLoop.init, h0]

/-- C7, the example of the specification: a source with `written = 80` of `limit = 100`. -/
theorem copy_and_assignment_reset_witness :
    (0 : Nat) < 100 ∧
    SinkLoop.copy ⟨7, 100, 80, 60, 17, 0⟩ = Except.ok ⟨7, 100, 0, 60, -1, 1⟩ ∧
    SinkLoop.assign mockSink ⟨3, 50, 20, 0, -1, 0⟩ ⟨7, 100, 80, 60, 17, 0⟩ false
      ⟨true, true, 4096⟩ = Except.ok (⟨7, 100, 0, 60, -1, 1⟩, ⟨false, true, 4096⟩) := by
  have h := copy_and_assignment_reset mockSink ⟨3, 50, 20, 0, -1, 0⟩ ⟨7, 100, 80, 60, 17, 0⟩
    ⟨true, true, 4096⟩ (by decide)
  exact ⟨by decide, h.2.1, h.2.2.1⟩

/-- C7 as stated fails for the destination that is the source itself: the guard
`this != &cs` skips the re-initialisation, and the decorator keeps `written = 80`,
`prevModulus = 17` and a cleared `firstPass`. -/
theorem self_assignment_counterexample :
    SinkLoop.assign mockSink ⟨7, 100, 80, 60, 17, 0⟩ ⟨7, 100, 80, 60, 17, 0⟩ true
      ⟨true, true, 4096⟩ = Except.ok (⟨7, 100, 80, 60, 17, 0⟩, ⟨true, true, 4096⟩) ∧
    SinkLoop.new3 7 100 60 = Except.ok ⟨7, 100, 0, 60, -1, 1⟩ ∧
    (⟨7, 100, 80, 60, 17, 0⟩ : SinkLoop) ≠ ⟨7, 100, 0, 60, -1, 1⟩ := by
  refine ⟨rfl, rfl, by decide⟩

/-! ## Open and the pass-through operations -/

/-- C8: `open()` returns exactly what the target's `open()` returns. If the target was open
it receives `flush`, `close`, `open` in that order, otherwise only `open`. In both cases,
and whatever the target answers, the counters are reset: `written` (to `limit + 1` on a
first pass with `seconds > 0`, else to 0), `prevModulus = -1`, `firstPass` cleared. -/
theorem open_delegates_to_target {σ : Type} (S : Sink σ) (s : SinkLoop) (w : σ) :
    SinkLoop.open (logged S) s (w, []) =
      if S.isOpen s.targetSink w then
        ((S.open s.targetSink (S.close s.targetSink (S.flush s.targetSink w))).1,
          { s with
            written := if s.firstPass ≠ 0 ∧ s.seconds > 0 then (s.limit + 1) % UINT_SIZE else 0
            firstPass := 0
            prevModulus := -1 },
          ((S.open s.targetSink (S.close s.targetSink (S.flush s.targetSink w))).2,
            [⟨s.targetSink, Op.flush⟩, ⟨s.targetSink, Op.close⟩, ⟨s.targetSink, Op.open⟩]))
      else
        ((S.open s.targetSink w).1,
          { s with
            written := if s.firstPass ≠ 0 ∧ s.seconds > 0 then (s.limit + 1) % UINT_SIZE else 0
            firstPass := 0
            prevModulus := -1 },
          ((S.open s.targetSink w).2, [⟨s.targetSink, Op.open⟩])) := by
  by_cases h : S.isOpen s.targetSink w <;>
    simp [SinkLoop.open, SinkLoop.isOpen, SinkLoop.flush, logged, h]

/-- C9 (as amended): `write` discards the value the target's `open()` returns during a
rotation. Whatever that answer is, `write` returns the byte count the target's `write`
reported and leaves the same decorator fields and the same sinks. -/
theorem write_ignores_open_answer {σ : Type} (S : Sink σ) (s : SinkLoop) (w : σ) (i : Input)
    (b : Bool) :
    SinkLoop.write (withOpenAnswer S b) s w i.buf i.len i.now =
      SinkLoop.write S s w i.buf i.len i.now ∧
    (SinkLoop.write (withOpenAnswer S b) s w i.buf i.len i.now).1 =
      (S.write s.targetSink i.buf i.len w).1 := by
  have h : SinkLoop.write (withOpenAnswer S b) s w i.buf i.len i.now =
      SinkLoop.write S s w i.buf i.len i.now := by
    simp [SinkLoop.write, SinkLoop.open, SinkLoop.isOpen, SinkLoop.flush, withOpenAnswer]
  exact ⟨h, by rw [h]; exact write_ret S s w i.buf i.len i.now⟩

/-- C9 as stated fails: limit 100, `written = 60`, a write of 60 bytes rotates. With a
target whose `open()` answers `false` and with one whose `open()` answers `true`, the write
returns 60 and leaves the same decorator; only the target itself differs (closed or open). -/
theorem write_swallows_open_failure_counterexample :
    (observe mockSink ⟨7, 100, 60, 0, -1, 0⟩ ⟨true, false, 4096⟩ ⟨0, 60, 0⟩).reopened = true ∧
    (mockSink.open 7 (mockSink.close 7 (mockSink.flush 7
      (mockSink.write 7 0 60 ⟨true, false, 4096⟩).2))).1 = false ∧
    (observe mockSink ⟨7, 100, 60, 0, -1, 0⟩ ⟨true, true, 4096⟩ ⟨0, 60, 0⟩).reopened = true ∧
    (mockSink.open 7 (mockSink.close 7 (mockSink.flush 7
      (mockSink.write 7 0 60 ⟨true, true, 4096⟩).2))).1 = true ∧
    (SinkLoop.write mockSink ⟨7, 100, 60, 0, -1, 0⟩ ⟨true, false, 4096⟩ 0 60 0).1 = 60 ∧
    (SinkLoop.write mockSink ⟨7, 100, 60, 0, -1, 0⟩ ⟨true, true, 4096⟩ 0 60 0).1 = 60 ∧
    (SinkLoop.write mockSink ⟨7, 100, 60, 0, -1, 0⟩ ⟨true, false, 4096⟩ 0 60 0).2.1 =
      (SinkLoop.write mockSink ⟨7, 100, 60, 0, -1, 0⟩ ⟨true, true, 4096⟩ 0 60 0).2.1 ∧
    observe mockSink ⟨7, 100, 60, 0, -1, 0⟩ ⟨true, false, 4096⟩ ⟨0, 60, 0⟩ =
      observe mockSink ⟨7, 100, 60, 0, -1, 0⟩ ⟨true, true, 4096⟩ ⟨0, 60, 0⟩ := by
  refine ⟨by decide, rfl, by decide, rfl, by decide, by decide, by decide, by decide⟩

/-- C10: `cut()`, `flush()` and `canWrite(sec, usec)` leave every field of the decorator
unchanged and forward exactly one call, with the same arguments, to the target; `canWrite`
and `isOpen` (a `const` query) return exactly the target's answer. -/
theorem pass_through_no_counter_effects {σ : Type} (S : Sink σ) (s : SinkLoop) (w : σ)
    (sec usec : Nat) :
    SinkLoop.cut (logged S) s (w, []) = (s, (S.cut s.targetSink w, [⟨s.targetSink, Op.cut⟩])) ∧
    SinkLoop.flush (logged S) s (w, []) =
      (s, (S.flush s.targetSink w, [⟨s.targetSink, Op.flush⟩])) ∧
    SinkLoop.canWrite (logged S) s (w, []) sec usec =
      ((S.canWrite s.targetSink sec usec w).1, s,
        ((S.canWrite s.targetSink sec usec w).2, [⟨s.targetSink, Op.canWrite sec usec⟩])) ∧
    SinkLoop.isOpen S s w = S.isOpen s.targetSink w :=
  ⟨rfl, rfl, rfl, rfl⟩

/-! ## Opening twice -/

/-- C11 (as amended): after `open()` called twice in a row, `prevModulus` and `firstPass`
are what a single `open()` leaves (`-1` and cleared) and `written` is 0; a single `open()`
leaves `written = 0` as well whenever `firstPass` was clear or `seconds = 0`, so the two
agree there, and leaves the unsigned `limit + 1` on a first pass with `seconds > 0`. -/
theorem open_twice_fields {σ : Type} (S : Sink σ) (s : SinkLoop) (w : σ) :
    (SinkLoop.open S (SinkLoop.open S s w).2.1 (SinkLoop.open S s w).2.2).2.1.prevModulus =
      (SinkLoop.open S s w).2.1.prevModulus ∧
    (SinkLoop.open S (SinkLoop.open S s w).2.1 (SinkLoop.open S s w).2.2).2.1.firstPass =
      (SinkLoop.open S s w).2.1.firstPass ∧
    (SinkLoop.open S (SinkLoop.open S s w).2.1 (SinkLoop.open S s w).2.2).2.1.written = 0 ∧
    (SinkLoop.open S s w).2.1.written =
      (if s.firstPass ≠ 0 ∧ s.seconds > 0 then (s.limit + 1) % UINT_SIZE else 0) ∧
    (s.firstPass = 0 ∨ s.seconds = 0 →
      (SinkLoop.open S (SinkLoop.open S s w).2.1 (SinkLoop.open S s w).2.2).2.1.written =
        (SinkLoop.open S s w).2.1.written) := by
  refine ⟨by simp [open_fields], by simp [open_fields], by simp [open_fields],
    by simp [open_fields], ?_⟩
  intro h
  rcases h with h | h <;> simp [open_fields, h]

/-- C11 on a decorator in the middle of a segment (`firstPass` clear): one `open()` and two
both leave `written = 0`, `prevModulus = -1`, `firstPass` cleared. -/
theorem open_twice_fields_witness :
    ((0 : Int) = 0 ∨ (60 : Nat) = 0) ∧
    (SinkLoop.open mockSink ⟨7, 100, 40, 60, 17, 0⟩ ⟨true, true, 4096⟩).2.1 =
      ⟨7, 100, 0, 60, -1, 0⟩ ∧
    (SinkLoop.open mockSink
      (SinkLoop.open mockSink ⟨7, 100, 40, 60, 17, 0⟩ ⟨true, true, 4096⟩).2.1
      (SinkLoop.open mockSink ⟨7, 100, 40, 60, 17, 0⟩ ⟨true, true, 4096⟩).2.2).2.1.written =
      (SinkLoop.open mockSink ⟨7, 100, 40, 60, 17, 0⟩ ⟨true, true, 4096⟩).2.1.written :=
  ⟨Or.inl rfl, rfl,
    (open_twice_fields mockSink ⟨7, 100, 40, 60, 17, 0⟩ ⟨true, true, 4096⟩).2.2.2.2 (Or.inl rfl)⟩

/-- C11 as stated fails on a freshly constructed decorator with `seconds > 0`: limit 100,
period 60. One `open()` leaves `written = 101`; a second `open()` in a row leaves
`written = 0`. -/
theorem open_not_idempotent_counterexample :
    SinkLoop.new3 7 100 60 = Except.ok ⟨7, 100, 0, 60, -1, 1⟩ ∧
    (SinkLoop.open mockSink ⟨7, 100, 0, 60, -1, 1⟩ ⟨false, true, 4096⟩).2.1 =
      ⟨7, 100, 101, 60, -1, 0⟩ ∧
    (SinkLoop.open mockSink
      (SinkLoop.open mockSink ⟨7, 100, 0, 60, -1, 1⟩ ⟨false, true, 4096⟩).2.1
      (SinkLoop.open mockSink ⟨7, 100, 0, 60, -1, 1⟩ ⟨false, true, 4096⟩).2.2).2.1 =
      ⟨7, 100, 0, 60, -1, 0⟩ ∧
    (SinkLoop.open mockSink
      (SinkLoop.open mockSink ⟨7, 100, 0, 60, -1, 1⟩ ⟨false, true, 4096⟩).2.1
      (SinkLoop.open mockSink ⟨7, 100, 0, 60, -1, 1⟩ ⟨false, true, 4096⟩).2.2).2.1.written ≠
      (SinkLoop.open mockSink ⟨7, 100, 0, 60, -1, 1⟩ ⟨false, true, 4096⟩).2.1.written := by
  refine ⟨rfl, rfl, rfl, by decide⟩

/-! ## The reporter -/

/-- C12: for every threshold `v`, event verbosity `e` and message, both `reportEvent`
overloads write to the stream if and only if `v ≥ e` (always for `e = 0`); what they append
is the process id, `": "`, the message, for the overload with a value a space and the value,
and the end of line; when `v < e` the stream is left as it was. The threshold is not
changed. -/
theorem report_event_filtering {T : Type} (fmt : T → String) (v e : Nat) (pid : Int)
    (os message : String) (t : T) :
    (Reporter.reportEvent ⟨v, os⟩ pid e message =
      ⟨v, if v ≥ e then os ++ (toString pid ++ ": " ++ message ++ "\n") else os⟩) ∧
    (Reporter.reportEventT fmt ⟨v, os⟩ pid e message t =
      ⟨v, if v ≥ e then os ++ (toString pid ++ ": " ++ message ++ " " ++ fmt t ++ "\n")
        else os⟩) ∧
    ((Reporter.reportEvent ⟨v, os⟩ pid e message).os ≠ os ↔ v ≥ e) ∧
    ((Reporter.reportEventT fmt ⟨v, os⟩ pid e message t).os ≠ os ↔ v ≥ e) ∧
    (Reporter.reportEvent ⟨v, os⟩ pid 0 message).os =
      os ++ (toString pid ++ ": " ++ message ++ "\n") ∧
    (Reporter.reportEventT fmt ⟨v, os⟩ pid 0 message t).os =
      os ++ (toString pid ++ ": " ++ message ++ " " ++ fmt t ++ "\n") := by
  have hne : ∀ x : String, os ++ (x ++ "\n") ≠ os := by
    intro x h
    have h2 := congrArg String.data h
    simp at h2
  refine ⟨?_, ?_, ?_, ?_, ?_, ?_⟩
  · by_cases h : e ≤ v <;> simp [Reporter.reportEvent, h, String.append_assoc]
  · by_cases h : e ≤ v <;> simp [Reporter.reportEventT, h, String.append_assoc]
  · by_cases h : e ≤ v
    · have := hne (toString pid ++ ": " ++ message)
      simp [Reporter.reportEvent, h, String.append_assoc] at this ⊢
      exact this
    · simp [Reporter.reportEvent, h]
  · by_cases h : e ≤ v
    · have := hne (toString pid ++ ": " ++ message ++ " " ++ fmt t)
      simp [Reporter.reportEventT, h, String.append_assoc] at this ⊢
      exact this
    · simp [Reporter.reportEventT, h]
  · simp [Reporter.reportEvent, String.append_assoc]
  · simp [Reporter.reportEventT, String.append_assoc]

/-! ## The time check after an open, and an armed decorator -/

/-- At or after the epoch, and for a period of at most `2 ^ 31` seconds, the modulus the
decorator computes is the mathematical remainder and is not negative. -/
theorem timeModulus_nonneg (now : Int) (seconds : Nat) (hnow : 0 ≤ now) (hpos : 0 < seconds)
    (hsec : seconds ≤ 2 ^ 31) : 0 ≤ timeModulus now seconds := by
  have h1 : 0 ≤ Int.tmod now (seconds : Int) := Int.tmod_nonneg _ hnow
  have h2 : Int.tmod now (seconds : Int) < (seconds : Int) :=
    Int.tmod_lt_of_pos _ (by exact_mod_cast hpos)
  have h3 : (seconds : Int) ≤ 2 ^ 31 := by exact_mod_cast hsec
  unfold timeModulus toInt
  rw [Int.emod_eq_of_lt (by omega) (by omega)]
  omega

/-- C13 (as amended): for every decorator with `0 < seconds ≤ 2 ^ 31`, the first write after
any `open()` (from any state: first-ever, after `close()`, or a rotation) does not rotate,
whatever byte count is reported and for every current time at or after the epoch: the modulus
is then at least 0 and `prevModulus` is `-1`. -/
theorem first_write_after_open_never_rotates {σ : Type} (S : Sink σ) (s : SinkLoop) (w : σ)
    (i : Input) (hpos : 0 < s.seconds) (hsec : s.seconds ≤ 2 ^ 31) (hnow : 0 ≤ i.now) :
    (SinkLoop.open S s w).2.1.prevModulus = -1 ∧
    0 ≤ timeModulus i.now s.seconds ∧
    (observe S (SinkLoop.open S s w).2.1 (SinkLoop.open S s w).2.2 i).reopened = false := by
  have hm := timeModulus_nonneg i.now s.seconds hnow hpos hsec
  refine ⟨by simp [open_fields], hm, ?_⟩
  obtain ⟨_, hr, _⟩ := observe_eq S (SinkLoop.open S s w).2.1 (SinkLoop.open S s w).2.2 i
  rw [hr]
  have h2 : s.seconds ≠ 0 := by omega
  have h3 : ¬ timeModulus i.now s.seconds < -1 := by omega
  simp [open_fields, h2, h3]

/-- C13 on the first-ever open: limit 100, period 60; the first write, at a time with
modulus 1, records the modulus and does not rotate. -/
theorem first_write_after_open_never_rotates_witness :
    (0 < (60 : Nat) ∧ (60 : Nat) ≤ 2 ^ 31 ∧ (0 : Int) ≤ 121) ∧
    (observe mockSink (SinkLoop.open mockSink ⟨7, 100, 0, 60, -1, 1⟩ ⟨false, true, 4096⟩).2.1
      (SinkLoop.open mockSink ⟨7, 100, 0, 60, -1, 1⟩ ⟨false, true, 4096⟩).2.2
      ⟨0, 10, 121⟩).reopened = false :=
  ⟨by decide,
    (first_write_after_open_never_rotates mockSink ⟨7, 100, 0, 60, -1, 1⟩ ⟨false, true, 4096⟩
      ⟨0, 10, 121⟩ (by decide) (by decide) (by decide)).2.2⟩

/-- C13 as stated fails where the computed modulus is below `-1`. With a period of
3000000000 seconds at time 2500000000 the remainder 2500000000 does not fit an `int` and is
stored as -1794967296; with period 60 at time -2 (before the epoch) the remainder is -2. In
both cases the first write after the first-ever open reopens the target. -/
theorem first_write_after_open_rotates_counterexample :
    timeModulus 2500000000 3000000000 = -1794967296 ∧
    (SinkLoop.open mockSink ⟨7, 100, 0, 3000000000, -1, 1⟩ ⟨false, true, 4096⟩).2.1 =
      ⟨7, 100, 101, 3000000000, -1, 0⟩ ∧
    (observe mockSink
      (SinkLoop.open mockSink ⟨7, 100, 0, 3000000000, -1, 1⟩ ⟨false, true, 4096⟩).2.1
      (SinkLoop.open mockSink ⟨7, 100, 0, 3000000000, -1, 1⟩ ⟨false, true, 4096⟩).2.2
      ⟨0, 10, 2500000000⟩).reopened = true ∧
    timeModulus (-2) 60 = -2 ∧
    (observe mockSink (SinkLoop.open mockSink ⟨7, 100, 0, 60, -1, 1⟩ ⟨false, true, 4096⟩).2.1
      (SinkLoop.open mockSink ⟨7, 100, 0, 60, -1, 1⟩ ⟨false, true, 4096⟩).2.2
      ⟨0, 10, -2⟩).reopened = true := by
  refine ⟨by decide, rfl, by decide, by decide, by decide⟩

/-- C14 (as amended): for every decorator with `seconds > 0` in a state with
`written ≥ limit`, and every reported byte count that does not make the 32-bit counter wrap,
the next write evaluates the time condition: either it rotates, or it records
`prevModulus` = the current modulus and the decorator stays armed, with `written` grown by
the reported count. -/
theorem armed_write_checks_time {σ : Type} (S : Sink σ) (s : SinkLoop) (w : σ) (i : Input)
    (hsec : 0 < s.seconds) (harmed : s.limit ≤ s.written)
    (hnw : s.written + (S.write s.targetSink i.buf i.len w).1 < UINT_SIZE) :
    (observe S s w i).reopened = decide (timeModulus i.now s.seconds < s.prevModulus) ∧
    ((observe S s w i).reopened = true ∨
      ((observe S s w i).after.prevModulus = timeModulus i.now s.seconds ∧
        (observe S s w i).after.written = s.written + (S.write s.targetSink i.buf i.len w).1 ∧
        (observe S s w i).after.limit ≤ (observe S s w i).after.written)) := by
  obtain ⟨_, hr, ha⟩ := observe_eq S s w i
  have hmod := Nat.mod_eq_of_lt hnw
  have h1 : s.limit ≤ s.written + (S.write s.targetSink i.buf i.len w).1 := by omega
  have h2 : s.seconds ≠ 0 := by omega
  rw [hr, ha]
  by_cases h3 : timeModulus i.now s.seconds < s.prevModulus <;> simp [hmod, h1, h2, h3]

/-- C14 on an armed decorator: limit 100, `written = 101`, period 60, recorded modulus 58;
a write of 5 bytes at modulus 59 records 59 and leaves `written = 106`. -/
theorem armed_write_checks_time_witness :
    (0 < (60 : Nat) ∧ (100 : Nat) ≤ 101 ∧ timeModulus 119 60 = 59) ∧
    (observe mockSink ⟨7, 100, 101, 60, 58, 0⟩ ⟨true, true, 4096⟩ ⟨0, 5, 119⟩).reopened =
      decide (timeModulus 119 60 < 58) ∧
    observe mockSink ⟨7, 100, 101, 60, 58, 0⟩ ⟨true, true, 4096⟩ ⟨0, 5, 119⟩ =
      ⟨5, [⟨7, Op.write 0 5⟩], ⟨7, 100, 106, 60, 59, 0⟩⟩ :=
  ⟨by decide,
    (armed_write_checks_time mockSink ⟨7, 100, 101, 60, 58, 0⟩ ⟨true, true, 4096⟩ ⟨0, 5, 119⟩
      (by decide) (by decide) (by decide)).1,
    by decide⟩

/-- C14 as stated fails when the 32-bit counter wraps: limit 1000, `written = 1001`, period
3600, recorded modulus 3000. A write reporting 4294966300 bytes at modulus 10 leaves
`written = 5`: it neither rotates nor records the modulus, and the decorator is no longer
armed. -/
theorem armed_write_wrap_counterexample :
    timeModulus 3610 3600 = 10 ∧
    observe mockSink ⟨7, 1000, 1001, 3600, 3000, 0⟩ ⟨true, true, 4294967295⟩
      ⟨0, 4294966300, 3610⟩ =
      ⟨4294966300, [⟨7, Op.write 0 4294966300⟩], ⟨7, 1000, 5, 3600, 3000, 0⟩⟩ ∧
    (observe mockSink ⟨7, 1000, 1001, 3600, 3000, 0⟩ ⟨true, true, 4294967295⟩
      ⟨0, 4294966300, 3610⟩).reopened = false ∧
    (observe mockSink ⟨7, 1000, 1001, 3600, 3000, 0⟩ ⟨true, true, 4294967295⟩
      ⟨0, 4294966300, 3610⟩).after.prevModulus ≠ timeModulus 3610 3600 ∧
    ¬ ((observe mockSink ⟨7, 1000, 1001, 3600, 3000, 0⟩ ⟨true, true, 4294967295⟩
      ⟨0, 4294966300, 3610⟩).after.limit ≤
      (observe mockSink ⟨7, 1000, 1001, 3600, 3000, 0⟩ ⟨true, true, 4294967295⟩
        ⟨0, 4294966300, 3610⟩).after.written) := by
  refine ⟨by decide, by decide, by decide, by decide, by decide⟩

/-! ## The counter when `canWrite` is called -/

/-- C15 on a time-aligned decorator: limit 100, period 60. After construction and the first
`open()` the counter is 101, and after a first write of 10 bytes it is 111: `canWrite` is
called with `written ≥ limit` in both states, and it only forwards to the target. -/
theorem canWrite_reached_with_written_over_limit :
    SinkLoop.new3 7 100 60 = Except.ok ⟨7, 100, 0, 60, -1, 1⟩ ∧
    run mockSink ⟨7, 100, 0, 60, -1, 1⟩ ⟨false, true, 4096⟩ [Cmd.open] =
      (⟨7, 100, 101, 60, -1, 0⟩, ⟨true, true, 4096⟩) ∧
    ¬ ((run mockSink ⟨7, 100, 0, 60, -1, 1⟩ ⟨false, true, 4096⟩ [Cmd.open]).1.written <
      (run mockSink ⟨7, 100, 0, 60, -1, 1⟩ ⟨false, true, 4096⟩ [Cmd.open]).1.limit) ∧
    SinkLoop.canWrite mockSink ⟨7, 100, 101, 60, -1, 0⟩ ⟨true, true, 4096⟩ 1 0 =
      (true, ⟨7, 100, 101, 60, -1, 0⟩, ⟨true, true, 4096⟩) ∧
    run mockSink ⟨7, 100, 0, 60, -1, 1⟩ ⟨false, true, 4096⟩
        [Cmd.open, Cmd.write ⟨0, 10, 121⟩] =
      (⟨7, 100, 111, 60, 1, 0⟩, ⟨true, true, 4096⟩) ∧
    ¬ ((run mockSink ⟨7, 100, 0, 60, -1, 1⟩ ⟨false, true, 4096⟩
        [Cmd.open, Cmd.write ⟨0, 10, 121⟩]).1.written <
      (run mockSink ⟨7, 100, 0, 60, -1, 1⟩ ⟨false, true, 4096⟩
        [Cmd.open, Cmd.write ⟨0, 10, 121⟩]).1.limit) := by
  refine ⟨rfl, by decide, by decide, rfl, by decide, by decide⟩

/-- In size mode one call keeps `seconds = 0`, the limit, and `written < limit`. -/
theorem step_size_invariant {σ : Type} (S : Sink σ) (s : SinkLoop) (w : σ) (c : Cmd)
    (hsec : s.seconds = 0) (hlt : s.written < s.limit) :
    (step S s w c).1.seconds = 0 ∧ (step S s w c).1.limit = s.limit ∧
      (step S s w c).1.written < (step S s w c).1.limit := by
  cases c with
  | «open» => simp [step, open_fields, hsec]; omega
  | write i =>
    by_cases h1 : s.limit ≤ (s.written + (S.write s.targetSink i.buf i.len w).1) % UINT_SIZE
    · have h0 : 0 < s.limit := by omega
      simp [step, SinkLoop.write, SinkLoop.open, h1, hsec, h0]
    · have h2 : (s.written + (S.write s.targetSink i.buf i.len w).1) % UINT_SIZE < s.limit := by
        omega
      simp [step, SinkLoop.write, h1, hsec, h2]
  | flush => exact ⟨hsec, rfl, hlt⟩
  | close => exact ⟨hsec, rfl, hlt⟩
  | cut => exact ⟨hsec, rfl, hlt⟩
  | canWrite sec usec => exact ⟨hsec, rfl, hlt⟩
  | isOpen => exact ⟨hsec, rfl, hlt⟩

/-- In size mode every sequence of calls keeps the limit and `written < limit`. -/
theorem run_size_invariant {σ : Type} (S : Sink σ) (cmds : List Cmd) :
    ∀ (s : SinkLoop) (w : σ), s.seconds = 0 → s.written < s.limit →
      (run S s w cmds).1.limit = s.limit ∧
        (run S s w cmds).1.written < (run S s w cmds).1.limit := by
  induction cmds with
  | nil => intro s w _ hlt; exact ⟨rfl, hlt⟩
  | cons c cs ih =>
    intro s w hsec hlt
    obtain ⟨h1, h2, h3⟩ := step_size_invariant S s w c hsec hlt
    obtain ⟨h4, h5⟩ := ih (step S s w c).1 (step S s w c).2 h1 h3
    exact ⟨by rw [run, h4, h2], by rw [run]; exact h5⟩

/-- C16: for every decorator constructed with `seconds = 0`, `written < limit` holds after
construction and after every sequence of `open`, `write`, `flush`, `close`, `cut`, `canWrite`
and `isOpen` calls, for every target: whatever byte counts it reports and whatever its
`open()` answers. -/
theorem size_mode_written_below_limit {σ : Type} (S : Sink σ) (t limit : Nat) (s0 : SinkLoop)
    (w : σ) (cmds : List Cmd) (hnew : SinkLoop.new3 t limit 0 = Except.ok s0) :
    s0.written < s0.limit ∧
    (run S s0 w cmds).1.limit = limit ∧
    (run S s0 w cmds).1.written < (run S s0 w cmds).1.limit := by
  have hs0 : s0 = ⟨t, limit, 0, 0, -1, 1⟩ ∧ 0 < limit := by
    unfold SinkLoop.new3 SinkLoop.init at hnew
    split_ifs at hnew with h
    exact ⟨(Except.ok.inj hnew).symm, by omega⟩
  obtain ⟨hs, hl⟩ := hs0
  subst hs
  obtain ⟨h1, h2⟩ := run_size_invariant S cmds ⟨t, limit, 0, 0, -1, 1⟩ w rfl hl
  exact ⟨hl, h1, h2⟩

/-- C16 on a run with a failing `open()`, a rotation and a write that wraps the counter. -/
theorem size_mode_written_below_limit_witness :
    SinkLoop.new3 7 100 0 = Except.ok ⟨7, 100, 0, 0, -1, 1⟩ ∧
    (run mockSink ⟨7, 100, 0, 0, -1, 1⟩ ⟨false, false, 4294967295⟩
      [Cmd.open, Cmd.write ⟨0, 60, 0⟩, Cmd.canWrite 1 0, Cmd.write ⟨0, 60, 0⟩, Cmd.flush,
        Cmd.isOpen, Cmd.write ⟨0, 70, 0⟩, Cmd.cut, Cmd.write ⟨0, 4294967246, 0⟩,
        Cmd.close]).1 = ⟨7, 100, 20, 0, -1, 1⟩ ∧
    (run mockSink ⟨7, 100, 0, 0, -1, 1⟩ ⟨false, false, 4294967295⟩
      [Cmd.open, Cmd.write ⟨0, 60, 0⟩, Cmd.canWrite 1 0, Cmd.write ⟨0, 60, 0⟩, Cmd.flush,
        Cmd.isOpen, Cmd.write ⟨0, 70, 0⟩, Cmd.cut, Cmd.write ⟨0, 4294967246, 0⟩,
        Cmd.close]).1.written <
      (run mockSink ⟨7, 100, 0, 0, -1, 1⟩ ⟨false, false, 4294967295⟩
        [Cmd.open, Cmd.write ⟨0, 60, 0⟩, Cmd.canWrite 1 0, Cmd.write ⟨0, 60, 0⟩, Cmd.flush,
          Cmd.isOpen, Cmd.write ⟨0, 70, 0⟩, Cmd.cut, Cmd.write ⟨0, 4294967246, 0⟩,
          Cmd.close]).1.limit :=
  ⟨rfl, by decide,
    (size_mode_written_below_limit mockSink 7 100 ⟨7, 100, 0, 0, -1, 1⟩
      ⟨false, false, 4294967295⟩
      [Cmd.open, Cmd.write ⟨0, 60, 0⟩, Cmd.canWrite 1 0, Cmd.write ⟨0, 60, 0⟩, Cmd.flush,
        Cmd.isOpen, Cmd.write ⟨0, 70, 0⟩, Cmd.cut, Cmd.write ⟨0, 4294967246, 0⟩,
        Cmd.close] rfl).2.2⟩

/-! ## Writing after a close -/

/-- What a write after `close()` does in general: `close()` changes only `firstPass`, and
for every decorator with `seconds > 0` in a state with `written ≥ limit`, a following write
for which the target reports 0 bytes and whose modulus is below the recorded `prevModulus`
calls `open()`: the target receives an `open` call, and the decorator is left with
`prevModulus = -1`, `firstPass` cleared and `written` = `limit + 1` reduced modulo `2 ^ 32`
(so `limit + 1` for every limit below 4294967295). -/
theorem write_after_close_reopens {σ : Type} (S : Sink σ) (s : SinkLoop) (w : σ) (i : Input)
    (hsec : 0 < s.seconds) (harmed : s.limit ≤ s.written) (hw : s.written < UINT_SIZE)
    (hp : 0 < s.prevModulus)
    (hret : (S.write s.targetSink i.buf i.len (SinkLoop.close S s w).2).1 = 0)
    (hm : timeModulus i.now s.seconds < s.prevModulus) :
    (SinkLoop.close S s w).1 = { s with firstPass := 1 } ∧
    (SinkLoop.close S s w).2 = S.close s.targetSink w ∧
    (observe S (SinkLoop.close S s w).1 (SinkLoop.close S s w).2 i).reopened = true ∧
    (observe S (SinkLoop.close S s w).1 (SinkLoop.close S s w).2 i).after =
      { s with written := (s.limit + 1) % UINT_SIZE, firstPass := 0, prevModulus := -1 } := by
  have _ := hp
  obtain ⟨_, hr, ha⟩ := observe_eq S (SinkLoop.close S s w).1 (SinkLoop.close S s w).2 i
  have hc1 : (SinkLoop.close S s w).1 = { s with firstPass := 1 } := rfl
  have hmod : s.written % UINT_SIZE = s.written := Nat.mod_eq_of_lt hw
  refine ⟨rfl, rfl, ?_, ?_⟩
  · rw [hr]
    simp only [hc1] at hret ⊢
    simp [hret, hmod, harmed, hm]
  · rw [ha]
    simp only [hc1] at hret ⊢
    simp [hret, hmod, harmed, hm, hsec]

/-- An instance with limit 100, period 60, `written = 101`, recorded modulus 59: after
`close()` a write of 0 bytes at modulus 1 reopens the closed target, which receives `write`
and `open`, and the decorator is armed again with `written = 101`. -/
theorem write_after_close_reopens_witness :
    (0 < (60 : Nat) ∧ (100 : Nat) ≤ 101 ∧ (0 : Int) < 59 ∧ timeModulus 121 60 = 1) ∧
    SinkLoop.close mockSink ⟨7, 100, 101, 60, 59, 0⟩ ⟨true, true, 4096⟩ =
      (⟨7, 100, 101, 60, 59, 1⟩, ⟨false, true, 4096⟩) ∧
    observe mockSink ⟨7, 100, 101, 60, 59, 1⟩ ⟨false, true, 4096⟩ ⟨0, 0, 121⟩ =
      ⟨0, [⟨7, Op.write 0 0⟩, ⟨7, Op.open⟩], ⟨7, 100, 101, 60, -1, 0⟩⟩ ∧
    (SinkLoop.write mockSink ⟨7, 100, 101, 60, 59, 1⟩ ⟨false, true, 4096⟩ 0 0 121).2.2 =
      ⟨true, true, 4096⟩ ∧
    (observe mockSink (SinkLoop.close mockSink ⟨7, 100, 101, 60, 59, 0⟩ ⟨true, true, 4096⟩).1
      (SinkLoop.close mockSink ⟨7, 100, 101, 60, 59, 0⟩ ⟨true, true, 4096⟩).2
      ⟨0, 0, 121⟩).reopened = true :=
  ⟨by decide, rfl, by decide, by decide,
    (write_after_close_reopens mockSink ⟨7, 100, 101, 60, 59, 0⟩ ⟨true, true, 4096⟩ ⟨0, 0, 121⟩
      (by decide) (by decide) (by decide) (by decide) (by decide) (by decide)).2.2.1⟩

/-- C17 at the largest limit: limit 4294967295, period 60. The first open and a write of
4294967295 bytes at modulus 59 give `written = 4294967295 ≥ limit` with recorded modulus 59.
After `close()`, a write of 0 bytes at modulus 1 calls `open()`, which opens the closed target
(it receives `write` and `open`), but `written` is left at 0 and not at `limit + 1`: the
decorator is not re-armed. -/
theorem write_after_close_arming_overflow :
    SinkLoop.new3 7 4294967295 60 = Except.ok ⟨7, 4294967295, 0, 60, -1, 1⟩ ∧
    timeModulus 119 60 = 59 ∧ timeModulus 121 60 = 1 ∧
    run mockSink ⟨7, 4294967295, 0, 60, -1, 1⟩ ⟨false, true, 4294967295⟩
      [Cmd.open, Cmd.write ⟨0, 4294967295, 119⟩] =
      (⟨7, 4294967295, 4294967295, 60, 59, 0⟩, ⟨true, true, 4294967295⟩) ∧
    SinkLoop.close mockSink ⟨7, 4294967295, 4294967295, 60, 59, 0⟩ ⟨true, true, 4294967295⟩ =
      (⟨7, 4294967295, 4294967295, 60, 59, 1⟩, ⟨false, true, 4294967295⟩) ∧
    observe mockSink ⟨7, 4294967295, 4294967295, 60, 59, 1⟩ ⟨false, true, 4294967295⟩
      ⟨0, 0, 121⟩ =
      ⟨0, [⟨7, Op.write 0 0⟩, ⟨7, Op.open⟩], ⟨7, 4294967295, 0, 60, -1, 0⟩⟩ ∧
    (SinkLoop.write mockSink ⟨7, 4294967295, 4294967295, 60, 59, 1⟩
      ⟨false, true, 4294967295⟩ 0 0 121).2.2 = ⟨true, true, 4294967295⟩ ∧
    (observe mockSink ⟨7, 4294967295, 4294967295, 60, 59, 1⟩ ⟨false, true, 4294967295⟩
      ⟨0, 0, 121⟩).after.written ≠ 4294967295 + 1 ∧
    ¬ ((observe mockSink ⟨7, 4294967295, 4294967295, 60, 59, 1⟩ ⟨false, true, 4294967295⟩
      ⟨0, 0, 121⟩).after.limit ≤
      (observe mockSink ⟨7, 4294967295, 4294967295, 60, 59, 1⟩ ⟨false, true, 4294967295⟩
        ⟨0, 0, 121⟩).after.written) := by
  refine ⟨rfl, by decide, by decide, by decide, rfl, by decide, by decide, by decide,
    by decide⟩

end DarkIce
